import Mathlib

/-!
Harmony playback engine

A shallow embedding of `src/contexts/PlayerContext.jsx` (the `PlayerProvider`
component) and the properties its specification states about queue
construction, queue navigation, volume and position, favorites and the states
the public operations can reach.

Conventions of the embedding

* JavaScript numbers that hold list positions are `Int`; numbers that hold
  seconds, a volume or a `Math.random()` draw are exact rationals (`ℚ`), so
  rounding of IEEE doubles is not modelled.  In particular the shuffle pick is
  the floor of the exact product `r * n`, where the program floors the double
  product, which can round up across an integer (for `r = 6004799503160661 /
  2 ^ 53` and `n = 3` the program picks 2, the exact floor is 1).  Of a shuffle
  pick the theorems therefore state only what holds for whichever index in
  `[0, n)` is picked.
* An array read `xs[i]` is `jsIndex xs i : Option _`; `none` stands for
  `undefined`.  Reading a property of `undefined` raises `JsError.typeError`.
* A callback of the provider reads two things: the `playerState` its render
  closed over (parameter `view`) and the argument of a functional
  `setPlayerState` updater (parameter `prev`).  The functions `playTracks`,
  `next` and `previous` are the callbacks of the latest render, where both are
  the current state.
* `toggleLike` is asynchronous: `toggleLikeBegin` is the part before its
  `await`, `toggleLikeResume` the part after the answer of the remote request.
* Effects are functions of the render they run on: `likedEffect`, `userEffect`,
  `trackEffect` and `playingEffect`; `settledAfter` is the state once
  `likedEffect` has run after a commit that changed one of its dependencies.
-/

namespace Harmony

/-- Track identifiers are opaque keys (`track.id`). -/
abbrev TrackId := Nat

/-- The fields of a track row that the provider and the player read. -/
structure Track where
  id : TrackId
  title : String
  artist : String
  url : String
deriving DecidableEq, Repr

/-- The `playerState` object; `defaultPlayerState` lists its fields. -/
structure PlayerState where
  currentTrack : Option Track
  isPlaying : Bool
  volume : ℚ
  queue : List Track
  currentIndex : Int
  shuffle : Bool
  liked : Bool
  source : Option String
deriving DecidableEq

/-- The constant `defaultPlayerState` (lines 7-16). -/
def defaultPlayerState : PlayerState where
  currentTrack := none
  isPlaying := false
  volume := 7 / 10
  queue := []
  currentIndex := -1
  shuffle := false
  liked := false
  source := none

/-- The part of the `Audio` element behind `audioRef.current` that the
provider reads or assigns. -/
structure Audio where
  src : String
  volume : ℚ
  currentTime : ℚ
  paused : Bool
deriving DecidableEq

/-- Exceptions a callback can raise. -/
inductive JsError where
  | typeError
deriving DecidableEq, Repr

/-- Values a callback can hand back to its caller. -/
inductive JsVal where
  | undefined
  | null
  | bool (b : Bool)
  | num (q : ℚ)
  | str (s : String)
deriving DecidableEq

/-- Array read `xs[i]`: `undefined` (here `none`) outside `0 ≤ i < xs.length`. -/
def jsIndex {α : Type} (xs : List α) (i : Int) : Option α :=
  if i < 0 then none else xs.get? i.toNat

/-- The callback `playTracks` (lines 164-179) of a render that closed over
`view` and `favorites`, run when the stored state is `prev`.  The result pairs
the value returned to the caller with the stored state afterwards. -/
def playTracksFrom (view : PlayerState) (favorites : Finset TrackId)
    (tracks : List Track) (startIndex : Int) (source : Option String)
    (prev : PlayerState) : Except JsError (JsVal × PlayerState) :=
  if tracks.length = 0 ∨ startIndex < 0 ∨ startIndex ≥ tracks.length then
    .ok (JsVal.undefined, prev)
  else
    match jsIndex tracks startIndex with
    | none => .error JsError.typeError
    | some track =>
      .ok (JsVal.undefined,
        { currentTrack := some track
          isPlaying := true
          volume := view.volume
          queue := tracks
          currentIndex := startIndex
          shuffle := false
          liked := decide (track.id ∈ favorites)
          source := source })

/-- The callback `playTracks` of the latest render. -/
def playTracks (favorites : Finset TrackId) (s : PlayerState)
    (tracks : List Track) (startIndex : Int) (source : Option String) :
    Except JsError (JsVal × PlayerState) :=
  playTracksFrom s favorites tracks startIndex source s

/-- The callback `next` (lines 196-212); `random` is the value `Math.random()`
returns when it is called. -/
def nextFrom (view : PlayerState) (favorites : Finset TrackId) (random : ℚ)
    (prev : PlayerState) : Except JsError PlayerState :=
  if view.queue.length = 0 then .ok prev
  else
    let nextIndex : Int :=
      if view.shuffle then ⌊random * (view.queue.length : ℚ)⌋
      else Int.tmod (view.currentIndex + 1) view.queue.length
    match jsIndex view.queue nextIndex with
    | none => .error JsError.typeError
    | some nextTrack =>
      .ok { prev with
            currentTrack := some nextTrack
            currentIndex := nextIndex
            isPlaying := true
            liked := decide (nextTrack.id ∈ favorites) }

/-- The callback `next` of the latest render. -/
def next (favorites : Finset TrackId) (random : ℚ) (s : PlayerState) :
    Except JsError PlayerState :=
  nextFrom s favorites random s

/-- The callback `previous` (lines 214-236); `audio` is `audioRef.current`
(`none` when it is `null`).  The result pairs the stored state with the audio
element afterwards. -/
def previousFrom (view : PlayerState) (favorites : Finset TrackId) (random : ℚ)
    (audio : Option Audio) (prev : PlayerState) :
    Except JsError (PlayerState × Option Audio) :=
  if view.queue.length = 0 then .ok (prev, audio)
  else
    let restart : Bool :=
      match audio with
      | some a => decide (a.currentTime > 3)
      | none => false
    if restart then
      .ok (prev, audio.map fun a => { a with currentTime := 0 })
    else
      let prevIndex : Int :=
        if view.shuffle then ⌊random * (view.queue.length : ℚ)⌋
        else Int.tmod (view.currentIndex - 1 + view.queue.length) view.queue.length
      match jsIndex view.queue prevIndex with
      | none => .error JsError.typeError
      | some prevTrack =>
        .ok ({ prev with
               currentTrack := some prevTrack
               currentIndex := prevIndex
               isPlaying := true
               liked := decide (prevTrack.id ∈ favorites) }, audio)

/-- The callback `previous` of the latest render. -/
def previous (favorites : Finset TrackId) (random : ℚ) (audio : Option Audio)
    (s : PlayerState) : Except JsError (PlayerState × Option Audio) :=
  previousFrom s favorites random audio s

/-- Run `next` once for every draw of `draws`, in order, stopping at the first
exception. -/
def nextRun (favorites : Finset TrackId) : List ℚ → PlayerState → Except JsError PlayerState
  | [], s => .ok s
  | r :: rs, s =>
    match next favorites r s with
    | .ok s' => nextRun favorites rs s'
    | .error e => .error e

/-- The callback `handleTrackEnd` (lines 147-149): it calls the `next` of its
own render. -/
def handleTrackEndFrom (view : PlayerState) (favorites : Finset TrackId) (random : ℚ)
    (prev : PlayerState) : Except JsError PlayerState :=
  nextFrom view favorites random prev

/-- The `ended` listener of the audio element.  The mount effect (lines 28-47)
has the dependency list `[]`, so it runs once, after the first render, and
registers that render's `handleTrackEnd`; the first render's `playerState` is
the initial value `defaultPlayerState` of `useState` and its `favorites` is the
initial `new Set()`.  The listener is never registered again. -/
def endedListener (random : ℚ) (prev : PlayerState) : Except JsError PlayerState :=
  handleTrackEndFrom defaultPlayerState ∅ random prev

/-- The callback `playTrack` (lines 151-162); the stored state is replaced by
an object literal, so no earlier stored state is read. -/
def playTrackFrom (view : PlayerState) (favorites : Finset TrackId)
    (track : Track) (source : Option String) : PlayerState where
  currentTrack := some track
  isPlaying := true
  volume := view.volume
  queue := [track]
  currentIndex := 0
  shuffle := false
  liked := decide (track.id ∈ favorites)
  source := source

/-- The callback `playTrack` of the latest render. -/
def playTrack (favorites : Finset TrackId) (s : PlayerState)
    (track : Track) (source : Option String) : PlayerState :=
  playTrackFrom s favorites track source

/-- The callback `togglePlay` (lines 181-194). -/
def togglePlayFrom (view prev : PlayerState) : PlayerState :=
  if view.currentTrack = none ∧ view.queue.length > 0 then
    { prev with
      currentTrack := jsIndex prev.queue 0
      currentIndex := 0
      isPlaying := true }
  else
    { prev with isPlaying := !prev.isPlaying }

/-- The callback `togglePlay` of the latest render. -/
def togglePlay (s : PlayerState) : PlayerState :=
  togglePlayFrom s s

/-- The callback `toggleShuffle` (lines 238-243). -/
def toggleShuffle (prev : PlayerState) : PlayerState :=
  { prev with shuffle := !prev.shuffle }

/-- The callback `setVolume` (lines 305-307). -/
def setVolume (volume : ℚ) (prev : PlayerState) : PlayerState :=
  { prev with volume := volume }

/-- The callback `seek` (lines 309-314) on `audioRef.current` and the mirrored
`currentTime` state.  The element's `currentTime` field holds the value the
provider assigns, that is the position it requests. -/
def seek (time : ℚ) (audio : Option Audio) (currentTime : ℚ) : Option Audio × ℚ :=
  match audio with
  | some a => (some { a with currentTime := time }, time)
  | none => (none, currentTime)

/-- The signed-in identity (`user`), of which the provider reads `user.id`. -/
structure User where
  id : Nat
deriving DecidableEq, Repr

/-- The `error` a remote request comes back with. -/
structure RemoteError where
  message : String
deriving DecidableEq, Repr

/-- The requests `toggleLike` sends to the `favorites` table. -/
inductive RemoteRequest where
  | insertFavorite (userId : Nat) (trackId : TrackId)
  | deleteFavorite (userId : Nat) (trackId : TrackId)
deriving DecidableEq, Repr

/-- The two pieces of provider state `toggleLike` writes. -/
structure LocalState where
  favorites : Finset TrackId
  playerState : PlayerState
deriving DecidableEq

/-- Where `toggleLike` stands when it first gives up control: it has returned,
or it awaits the answer to `request`, holding `trackId` and `isCurrentlyLiked`. -/
inductive Pending where
  | returned
  | awaiting (request : RemoteRequest) (trackId : TrackId) (isCurrentlyLiked : Bool)
deriving DecidableEq

/-- What a finished `toggleLike` leaves: the error it threw, if any, and the
local state. -/
structure Outcome where
  thrown : Option RemoteError
  state : LocalState
deriving DecidableEq

/-- The callback `toggleLike` (lines 246-263, 273-280) up to its `await`: no
setter is called on the way, so the local state `now` is passed on as it is. -/
def toggleLikeBegin (user : Option User) (view : PlayerState)
    (favorites : Finset TrackId) (specificTrack : Option Track) (now : LocalState) :
    Pending × LocalState :=
  match user with
  | none => (Pending.returned, now)
  | some u =>
    match specificTrack <|> view.currentTrack with
    | none => (Pending.returned, now)
    | some trackToToggle =>
      let trackId := trackToToggle.id
      let isCurrentlyLiked := decide (trackId ∈ favorites)
      if isCurrentlyLiked then
        (Pending.awaiting (RemoteRequest.deleteFavorite u.id trackId) trackId isCurrentlyLiked,
          now)
      else
        (Pending.awaiting (RemoteRequest.insertFavorite u.id trackId) trackId isCurrentlyLiked,
          now)

/-- The callback `toggleLike` (lines 265-302) from the answer of the remote
request on: `response` is the `error` of the answer (`none` for success), `now`
the local state when the answer arrives. -/
def toggleLikeResume (view : PlayerState) (trackId : TrackId) (isCurrentlyLiked : Bool)
    (response : Option RemoteError) (now : LocalState) : Outcome :=
  match response with
  | some error => { thrown := some error, state := now }
  | none =>
    let favorites :=
      if isCurrentlyLiked then now.favorites.erase trackId
      else insert trackId now.favorites
    let playerState :=
      if view.currentTrack.map Track.id = some trackId then
        { now.playerState with liked := !isCurrentlyLiked }
      else now.playerState
    { thrown := none, state := { favorites := favorites, playerState := playerState } }

/-- The callback `toggleLike` of a render that closed over `view` and
`favorites`, when nothing else writes the local state while it awaits. -/
def toggleLikeFrom (user : Option User) (view : PlayerState) (favorites : Finset TrackId)
    (specificTrack : Option Track) (response : Option RemoteError) (now : LocalState) :
    Outcome :=
  match toggleLikeBegin user view favorites specificTrack now with
  | (Pending.returned, inFlight) => { thrown := none, state := inFlight }
  | (Pending.awaiting _ trackId isCurrentlyLiked, inFlight) =>
    toggleLikeResume view trackId isCurrentlyLiked response inFlight

/-- The callback `toggleLike` of the latest render. -/
def toggleLike (user : Option User) (specificTrack : Option Track)
    (response : Option RemoteError) (now : LocalState) : Outcome :=
  toggleLikeFrom user now.playerState now.favorites specificTrack response now

/-- What reaches `toggleLike` as its parameter `specificTrack`: nothing (the
default `null`), a track, or another truthy object that has no `id`.  The
player's like button is wired as `onClick={toggleLike}` (Player.jsx, line 120),
so React calls `toggleLike` with the click event. -/
inductive LikeArgument where
  | absent
  | track (t : Track)
  | event
deriving DecidableEq

/-- A request to the `favorites` table as `toggleLike` writes it: a delete
(`remove`) or an insert for `user_id` and `track_id`, where `track_id = none`
stands for a `track_id` of `undefined`. -/
structure LikeRequest where
  remove : Bool
  user_id : Nat
  track_id : Option TrackId
deriving DecidableEq, Repr

/-- The request of `toggleLikeBegin` in that form. -/
def LikeRequest.ofRemote : RemoteRequest → LikeRequest
  | RemoteRequest.insertFavorite userId trackId => ⟨false, userId, some trackId⟩
  | RemoteRequest.deleteFavorite userId trackId => ⟨true, userId, some trackId⟩

/-- What a call of `toggleLike` with any argument leaves: the request it sent,
if any, the error it threw and the local state, and whether the favorites
`Set` holds `undefined` afterwards. -/
structure LikeCall where
  request : Option LikeRequest
  outcome : Outcome
  holdsUndefined : Bool
deriving DecidableEq

/-- The callback `toggleLike` (lines 246-303) of the latest render, for any
argument.  With no argument or a track it is `toggleLike`.  With the click
event `specificTrack || playerState.currentTrack` is the event, `trackId` is
`event.id`, that is `undefined`, and `favorites.has(undefined)` is
`holdsUndefined`: the request carries no track id, a success adds `undefined`
to (or deletes it from) the `Set`, so the membership of every track id stays,
and `playerState.currentTrack?.id === trackId` holds only without a current
track. -/
def toggleLikeCall (user : Option User) (argument : LikeArgument) (holdsUndefined : Bool)
    (response : Option RemoteError) (now : LocalState) : LikeCall :=
  match argument with
  | LikeArgument.absent =>
    { request :=
        match (toggleLikeBegin user now.playerState now.favorites none now).1 with
        | Pending.returned => none
        | Pending.awaiting request _ _ => some (LikeRequest.ofRemote request)
      outcome := toggleLike user none response now
      holdsUndefined := holdsUndefined }
  | LikeArgument.track t =>
    { request :=
        match (toggleLikeBegin user now.playerState now.favorites (some t) now).1 with
        | Pending.returned => none
        | Pending.awaiting request _ _ => some (LikeRequest.ofRemote request)
      outcome := toggleLike user (some t) response now
      holdsUndefined := holdsUndefined }
  | LikeArgument.event =>
    match user with
    | none =>
      { request := none, outcome := { thrown := none, state := now }
        holdsUndefined := holdsUndefined }
    | some u =>
      let isCurrentlyLiked := holdsUndefined
      let request : LikeRequest := ⟨isCurrentlyLiked, u.id, none⟩
      match response with
      | some error =>
        { request := some request, outcome := { thrown := some error, state := now }
          holdsUndefined := holdsUndefined }
      | none =>
        let playerState :=
          if now.playerState.currentTrack = none then
            { now.playerState with liked := !isCurrentlyLiked }
          else now.playerState
        { request := some request
          outcome := { thrown := none, state := { now with playerState := playerState } }
          holdsUndefined := !isCurrentlyLiked }

/-- A click on the player's like button (Player.jsx, lines 119-121):
`onClick={toggleLike}` calls `toggleLike` with the click event. -/
def likeButtonClick (user : Option User) (holdsUndefined : Bool)
    (response : Option RemoteError) (now : LocalState) : LikeCall :=
  toggleLikeCall user LikeArgument.event holdsUndefined response now

/-- A call of one of the public operations of the provider, with what the call
observes of its surroundings: the `Math.random()` draw, the audio element, the
signed-in identity and the answer of the remote request. -/
inductive Action where
  | playTrack (track : Track) (source : Option String)
  | playTracks (tracks : List Track) (startIndex : Int) (source : Option String)
  | togglePlay
  | next (random : ℚ)
  | previous (random : ℚ) (audio : Option Audio)
  | toggleShuffle
  | toggleLike (user : Option User) (specificTrack : Option Track)
      (response : Option RemoteError)
  | setVolume (volume : ℚ)
  | seek (time : ℚ) (audio : Option Audio) (currentTime : ℚ)

/-- The draws an action carries are values of `Math.random()`: `0 ≤ r < 1`. -/
def Action.DrawsInRange : Action → Prop
  | Action.next r => 0 ≤ r ∧ r < 1
  | Action.previous r _ => 0 ≤ r ∧ r < 1
  | _ => True

/-- One public operation, called on the latest render. -/
def applyAction (a : Action) (w : LocalState) : Except JsError LocalState :=
  match a with
  | Action.playTrack track source =>
    .ok { w with playerState := playTrack w.favorites w.playerState track source }
  | Action.playTracks tracks startIndex source =>
    (playTracks w.favorites w.playerState tracks startIndex source).map
      fun r => { w with playerState := r.2 }
  | Action.togglePlay => .ok { w with playerState := togglePlay w.playerState }
  | Action.next random =>
    (next w.favorites random w.playerState).map fun s => { w with playerState := s }
  | Action.previous random audio =>
    (previous w.favorites random audio w.playerState).map
      fun r => { w with playerState := r.1 }
  | Action.toggleShuffle => .ok { w with playerState := toggleShuffle w.playerState }
  | Action.toggleLike user specificTrack response =>
    .ok (toggleLike user specificTrack response w).state
  | Action.setVolume volume => .ok { w with playerState := setVolume volume w.playerState }
  | Action.seek _ _ _ => .ok w

/-- A sequence of public operations, each called on the render that follows
the one before; it stops at the first exception. -/
def runActions : List Action → LocalState → Except JsError LocalState
  | [], w => .ok w
  | a :: as, w =>
    match applyAction a w with
    | .ok w' => runActions as w'
    | .error e => .error e

/-- The provider state of the first render. -/
def initialState : LocalState where
  favorites := ∅
  playerState := defaultPlayerState

/-- Queue well-formedness: nothing is queued, the cursor is `-1` and no track
is current, or the cursor is inside the queue and the current track is the
queue item under it. -/
def WellFormed (s : PlayerState) : Prop :=
  (s.queue = [] ∧ s.currentIndex = -1 ∧ s.currentTrack = none) ∨
  (0 ≤ s.currentIndex ∧ s.currentIndex < s.queue.length ∧
    ∃ t, s.queue.get? s.currentIndex.toNat = some t ∧ s.currentTrack = some t)

/-- Reference definition of `togglePlay`, in the words of the specification:
with no current track and a non-empty queue, resume at the first queue item;
in every other case only negate `isPlaying`. -/
def togglePlaySpec (s : PlayerState) : PlayerState :=
  match s.currentTrack, s.queue with
  | none, first :: _ =>
    { s with currentTrack := some first, currentIndex := 0, isPlaying := true }
  | _, _ => { s with isPlaying := !s.isPlaying }

/-- The favorites set `after` differs from `before` exactly in the membership
of `id`. -/
def FlippedAt (id : TrackId) (before after : Finset TrackId) : Prop :=
  (id ∈ after ↔ id ∉ before) ∧ ∀ other, other ≠ id → (other ∈ after ↔ other ∈ before)

/-- The effect on `[playerState.currentTrack, favorites]` (lines 58-66): with a
current track it rewrites `liked` from the favorites set. -/
def likedEffect (view : PlayerState) (favorites : Finset TrackId) (prev : PlayerState) :
    PlayerState :=
  match view.currentTrack with
  | some currentTrack => { prev with liked := decide (currentTrack.id ∈ favorites) }
  | none => prev

/-- The local state once `likedEffect` has run on the latest render. -/
def settle (w : LocalState) : LocalState :=
  { w with playerState := likedEffect w.playerState w.favorites w.playerState }

/-- The local state after a commit that took `before` to `after`, effects
included: `likedEffect` runs when one of its dependencies changed. -/
def settledAfter (before after : LocalState) : LocalState :=
  if after.playerState.currentTrack = before.playerState.currentTrack ∧
      after.favorites = before.favorites then after
  else settle after

/-- The `liked` flag is the projection of the favorites set on the current
track. -/
def LikedProjected (w : LocalState) : Prop :=
  ∀ t, w.playerState.currentTrack = some t → w.playerState.liked = decide (t.id ∈ w.favorites)

/-- A row of the `favorites` table as `select('track_id')` returns it. -/
structure FavoriteRow where
  track_id : TrackId
deriving DecidableEq, Repr

/-- What a finished `loadFavorites` leaves: the error it threw to its caller,
the error it wrote to the console, and the favorites set. -/
structure LoadOutcome where
  thrown : Option RemoteError
  logged : Option RemoteError
  favorites : Finset TrackId
deriving DecidableEq

/-- The function `loadFavorites` (lines 68-80); `response` is the answer of the
remote store (its `data`, or its `error`), `prev` the favorites set so far. -/
def loadFavorites (response : Except RemoteError (List FavoriteRow))
    (prev : Finset TrackId) : LoadOutcome :=
  match response with
  | .ok data =>
    { thrown := none, logged := none
      favorites := (data.map FavoriteRow.track_id).toFinset }
  | .error err => { thrown := none, logged := some err, favorites := prev }

/-- The effect on `[user]` (lines 50-56): load the favorites of the identity,
or empty the set when nobody is signed in. -/
def userEffect (user : Option User) (response : Except RemoteError (List FavoriteRow))
    (prev : Finset TrackId) : LoadOutcome :=
  match user with
  | some _ => loadFavorites response prev
  | none => { thrown := none, logged := none, favorites := ∅ }

/-- The row `recordPlayHistory` (lines 132-145) inserts into `play_history`. -/
structure HistoryInsert where
  user_id : Nat
  track_id : TrackId
deriving DecidableEq, Repr

/-- What an audio effect leaves: the stored player state, the audio element
and the play-history row it sent, if any. -/
structure EffectOutcome where
  playerState : PlayerState
  audio : Option Audio
  history : Option HistoryInsert
deriving DecidableEq

/-- The effect on `[playerState.currentTrack]` (lines 82-99).  `rejected` tells
whether the promise `play()` returns is rejected; the `.catch` handler consumes
the rejection.  The element's fields hold what the provider assigns. -/
def trackEffect (user : Option User) (view : PlayerState) (audio : Option Audio)
    (rejected : Bool) (prev : PlayerState) : EffectOutcome :=
  match view.currentTrack, audio with
  | some currentTrack, some a =>
    let bound : Audio := { a with src := currentTrack.url, volume := view.volume }
    let history := user.map fun u => HistoryInsert.mk u.id currentTrack.id
    if view.isPlaying then
      if rejected then
        { playerState := { prev with isPlaying := false }, audio := some bound
          history := history }
      else
        { playerState := prev, audio := some { bound with paused := false }
          history := history }
    else
      { playerState := prev, audio := some bound, history := history }
  | _, _ => { playerState := prev, audio := audio, history := none }

/-- The effect on `[playerState.isPlaying]` (lines 101-112), with `rejected` as
in `trackEffect`. -/
def playingEffect (view : PlayerState) (audio : Option Audio) (rejected : Bool)
    (prev : PlayerState) : EffectOutcome :=
  match audio with
  | some a =>
    if view.isPlaying then
      if rejected then
        { playerState := { prev with isPlaying := false }, audio := some a, history := none }
      else
        { playerState := prev, audio := some { a with paused := false }, history := none }
    else
      { playerState := prev, audio := some { a with paused := true }, history := none }
  | none => { playerState := prev, audio := none, history := none }

/-- The player state with its `source` field replaced. -/
def withSource (source : Option String) (s : PlayerState) : PlayerState :=
  { s with source := source }

/-- The operations that build a queue: `playTrack` and `playTracks`. -/
def Action.isQueueConstruction : Action → Bool
  | Action.playTrack _ _ => true
  | Action.playTracks _ _ _ => true
  | _ => false

/-! ## Sample data -/

def trackA : Track := ⟨1, "A", "artist", "a.mp3"⟩
def trackB : Track := ⟨2, "B", "artist", "b.mp3"⟩
def trackC : Track := ⟨3, "C", "artist", "c.mp3"⟩

/-- A playing element, 42 seconds into `b.mp3`. -/
def audioLate : Audio := ⟨"b.mp3", 7 / 10, 42, false⟩

/-- A playing element, exactly 3 seconds into `b.mp3`. -/
def audioEarly : Audio := ⟨"b.mp3", 7 / 10, 3, false⟩

/-- A signed-in identity. -/
def userU : User := ⟨7⟩

/-- The answer of a remote request that failed. -/
def remoteFailure : RemoteError := ⟨"request failed"⟩

/-- A track duration of 180 seconds, as `loadedmetadata` reports it. -/
def duration180 : ℚ := 180

/-- The state `playTracks` stores for the queue `[A, B, C]` started at `k`, with
no favorites. -/
def abcAt (k : Int) (t : Track) : PlayerState where
  currentTrack := some t
  isPlaying := true
  volume := 7 / 10
  queue := [trackA, trackB, trackC]
  currentIndex := k
  shuffle := false
  liked := false
  source := none

/-- The queue `[A, B, C]` positioned on `B` with shuffle switched on. -/
def abcShuffled : PlayerState := { abcAt 1 trackB with shuffle := true }

/-- The queue `[A, B, C]` positioned on `B`, no favorites. -/
def onB : LocalState := ⟨∅, abcAt 1 trackB⟩

/-- A session that calls every public operation at least once. -/
def sampleSession : List Action :=
  [Action.togglePlay,
   Action.playTracks [trackA, trackB, trackC] 1 none,
   Action.next (1 / 2),
   Action.toggleShuffle,
   Action.next (1 / 2),
   Action.previous (9 / 10) (some audioEarly),
   Action.toggleLike (some userU) none none,
   Action.setVolume (1 / 2),
   Action.seek 10 (some audioLate) 42,
   Action.playTrack trackC none,
   Action.playTracks [] 0 none]

/-- The queue `[A, B, C]` positioned on `B`, with `B` a favorite. -/
def onLikedB : LocalState := ⟨{2}, { abcAt 1 trackB with liked := true }⟩

/-- A state as a queue start or a sequential `next` leaves it: playing, shuffle
off, the cursor inside the queue, and `currentTrack` / `liked` describing the
queue item under the cursor. -/
def PlayingInOrder (favorites : Finset TrackId) (s : PlayerState) : Prop :=
  s.isPlaying = true ∧ s.shuffle = false ∧
  0 ≤ s.currentIndex ∧ s.currentIndex < s.queue.length ∧
  ∃ t, s.queue.get? s.currentIndex.toNat = some t ∧
    s.currentTrack = some t ∧ s.liked = decide (t.id ∈ favorites)

/-- Two states agree on the fields that navigation never writes. -/
def SameFrame (s s' : PlayerState) : Prop :=
  s'.queue = s.queue ∧ s'.volume = s.volume ∧ s'.source = s.source

/-! ## Basic facts about array reads -/

theorem jsIndex_of_lt {α : Type} (xs : List α) (i : Int) (h0 : 0 ≤ i)
    (h1 : i < xs.length) : ∃ x, jsIndex xs i = some x ∧ xs.get? i.toNat = some x := by
  have hlt : i.toNat < xs.length := by omega
  refine ⟨xs.get ⟨i.toNat, hlt⟩, ?_, List.get?_eq_get hlt⟩
  unfold jsIndex
  rw [if_neg (by omega)]
  exact List.get?_eq_get hlt

theorem jsIndex_mem {α : Type} (xs : List α) (i : Int) (x : α)
    (h : jsIndex xs i = some x) : x ∈ xs := by
  unfold jsIndex at h
  split at h
  · cases h
  · exact List.get?_mem h

theorem jsIndex_of_not_guard (T : List Track) (k : Int)
    (h : ¬ (T.length = 0 ∨ k < 0 ∨ k ≥ (T.length : Int))) :
    ∃ t, jsIndex T k = some t ∧ T.get? k.toNat = some t := by
  have h0 : 0 ≤ k := by
    by_contra hc
    exact h (Or.inr (Or.inl (by omega)))
  have h1 : k < T.length := by
    by_contra hc
    exact h (Or.inr (Or.inr (by omega)))
  exact jsIndex_of_lt T k h0 h1

/-! ## Queue construction -/

theorem playTracks_of_valid (favorites : Finset TrackId) (s : PlayerState)
    (T : List Track) (k : Int) (src : Option String)
    (hk0 : 0 ≤ k) (hk1 : k < T.length) :
    ∃ t, T.get? k.toNat = some t ∧
      playTracks favorites s T k src =
        .ok (JsVal.undefined,
            { currentTrack := some t
              isPlaying := true
              volume := s.volume
              queue := T
              currentIndex := k
              shuffle := false
              liked := decide (t.id ∈ favorites)
              source := src }) := by
  obtain ⟨t, ht, hget⟩ := jsIndex_of_lt T k hk0 hk1
  refine ⟨t, hget, ?_⟩
  unfold playTracks playTracksFrom
  rw [if_neg (by omega), ht]

/-- C1: for a track list `T` and an index `k` with `0 ≤ k < len(T)` (so `T` is
not empty), any source and any prior state, `playTracks` raises nothing and stores exactly the
state with queue `T`, `currentIndex = k`, `currentTrack = T[k]`,
`isPlaying = true`, `shuffle = false`, the given source, the prior volume and
`liked = (T[k].id ∈ favorites)`. -/
theorem playTracks_valid (favorites : Finset TrackId) (s : PlayerState)
    (T : List Track) (k : Int) (src : Option String)
    (hk0 : 0 ≤ k) (hk1 : k < T.length) :
    ∃ t, T.get? k.toNat = some t ∧
      playTracks favorites s T k src =
        .ok (JsVal.undefined,
            { currentTrack := some t
              isPlaying := true
              volume := s.volume
              queue := T
              currentIndex := k
              shuffle := false
              liked := decide (t.id ∈ favorites)
              source := src }) := by
  exact playTracks_of_valid favorites s T k src hk0 hk1

theorem playTracks_valid_witness :
    ∃ t, [trackA, trackB, trackC].get? (1 : Int).toNat = some t ∧
      playTracks {2} defaultPlayerState [trackA, trackB, trackC] 1 (some "/album/7") =
        .ok (JsVal.undefined,
            { currentTrack := some t
              isPlaying := true
              volume := defaultPlayerState.volume
              queue := [trackA, trackB, trackC]
              currentIndex := 1
              shuffle := false
              liked := decide (t.id ∈ ({2} : Finset TrackId))
              source := some "/album/7" }) :=
  playTracks_valid {2} defaultPlayerState [trackA, trackB, trackC] 1 (some "/album/7")
    (by decide) (by simp)

/-- C2: when the track list is empty or the start index is negative or not
below the length, `playTracks` raises nothing and the stored state afterwards is
the prior state, field for field. -/
theorem playTracks_invalid_noop (favorites : Finset TrackId) (s : PlayerState)
    (T : List Track) (k : Int) (src : Option String)
    (h : T = [] ∨ k < 0 ∨ (T.length : Int) ≤ k) :
    (playTracks favorites s T k src).map Prod.snd = .ok s := by
  have hg : T.length = 0 ∨ k < 0 ∨ k ≥ (T.length : Int) := by
    rcases h with h | h | h
    · exact Or.inl (by simp [h])
    · exact Or.inr (Or.inl h)
    · exact Or.inr (Or.inr h)
  unfold playTracks playTracksFrom
  rw [if_pos hg]
  rfl

theorem playTracks_invalid_noop_witness :
    (playTracks {2} defaultPlayerState [trackA, trackB] 2 none).map Prod.snd
      = .ok defaultPlayerState :=
  playTracks_invalid_noop {2} defaultPlayerState [trackA, trackB] 2 none
    (Or.inr (Or.inr (by simp)))

/-- C3 (as stated, refuted): the value `playTracks` returns for an empty track
list is the very value it returns for a valid call, so the caller cannot tell
the two apart from the result. -/
theorem playTracks_report_counterexample :
    (playTracks ∅ defaultPlayerState [] 0 none).map Prod.fst = .ok JsVal.undefined ∧
    (playTracks ∅ defaultPlayerState [trackA] 0 none).map Prod.fst = .ok JsVal.undefined ∧
    ¬ ((playTracks ∅ defaultPlayerState [] 0 none).map Prod.fst ≠
        (playTracks ∅ defaultPlayerState [trackA] 0 none).map Prod.fst) := by
  refine ⟨rfl, rfl, ?_⟩
  intro h
  exact h rfl

/-- C3 (amended): `playTracks` reports nothing.  For every track list, start
index, source and prior state it raises no exception and returns `undefined`,
for an invalid call exactly as for a valid one. -/
theorem playTracks_returns_undefined (favorites : Finset TrackId) (s : PlayerState)
    (T : List Track) (k : Int) (src : Option String) :
    (playTracks favorites s T k src).map Prod.fst = .ok JsVal.undefined := by
  unfold playTracks playTracksFrom
  by_cases hg : T.length = 0 ∨ k < 0 ∨ k ≥ (T.length : Int)
  · rw [if_pos hg]
    rfl
  · obtain ⟨t, ht, -⟩ := jsIndex_of_not_guard T k hg
    rw [if_neg hg, ht]
    rfl

/-! ## Sequential navigation -/

theorem length_pos_of_ne_nil {α : Type} (xs : List α) (h : xs ≠ []) : 0 < xs.length :=
  List.length_pos.mpr h

theorem next_of_index (favorites : Finset TrackId) (random : ℚ) (s : PlayerState)
    (t : Track) (hq : s.queue ≠ []) (hsh : s.shuffle = false)
    (ht : jsIndex s.queue (Int.tmod (s.currentIndex + 1) s.queue.length) = some t) :
    next favorites random s =
      .ok { s with
            currentTrack := some t
            currentIndex := Int.tmod (s.currentIndex + 1) s.queue.length
            isPlaying := true
            liked := decide (t.id ∈ favorites) } := by
  have hlen : s.queue.length ≠ 0 := fun h => hq (List.length_eq_zero.mp h)
  unfold next nextFrom
  rw [if_neg hlen]
  simp only [hsh, Bool.false_eq_true, if_false]
  rw [ht]

theorem next_of_nonneg_cursor (favorites : Finset TrackId) (random : ℚ) (s : PlayerState)
    (hq : s.queue ≠ []) (hsh : s.shuffle = false) (h0 : 0 ≤ s.currentIndex) :
    ∃ t, s.queue.get? ((s.currentIndex + 1) % (s.queue.length : Int)).toNat = some t ∧
      next favorites random s =
        .ok { s with
              currentTrack := some t
              currentIndex := (s.currentIndex + 1) % (s.queue.length : Int)
              isPlaying := true
              liked := decide (t.id ∈ favorites) } := by
  have hpos := length_pos_of_ne_nil s.queue hq
  have hmod : Int.tmod (s.currentIndex + 1) s.queue.length
      = (s.currentIndex + 1) % (s.queue.length : Int) :=
    Int.tmod_eq_emod (by omega) (by omega)
  have hlo : 0 ≤ (s.currentIndex + 1) % (s.queue.length : Int) :=
    Int.emod_nonneg _ (by omega)
  have hhi : (s.currentIndex + 1) % (s.queue.length : Int) < s.queue.length :=
    Int.emod_lt_of_pos _ (by omega)
  obtain ⟨t, ht, hget⟩ := jsIndex_of_lt s.queue _ hlo hhi
  have hnext := next_of_index favorites random s t hq hsh (by rw [hmod]; exact ht)
  rw [hmod] at hnext
  exact ⟨t, hget, hnext⟩

/-- C4: with a non-empty queue of length `n`, shuffle off and cursor `c` in
`[0, n)` (the proof needs only `0 ≤ c`), `next` raises nothing, sets the cursor to `(c + 1) mod n` and
`currentTrack` to the queue item at that index, and changes nothing else but
`isPlaying` and `liked`; from the last index `n - 1` the new cursor is 0. -/
theorem next_sequential (favorites : Finset TrackId) (random : ℚ) (s : PlayerState)
    (hq : s.queue ≠ []) (hsh : s.shuffle = false)
    (h0 : 0 ≤ s.currentIndex) :
    ∃ t, s.queue.get? ((s.currentIndex + 1) % (s.queue.length : Int)).toNat = some t ∧
      next favorites random s =
        .ok { s with
              currentTrack := some t
              currentIndex := (s.currentIndex + 1) % (s.queue.length : Int)
              isPlaying := true
              liked := decide (t.id ∈ favorites) } ∧
      (s.currentIndex = (s.queue.length : Int) - 1 →
        (next favorites random s).map PlayerState.currentIndex = .ok 0) := by
  obtain ⟨t, hget, hnext⟩ := next_of_nonneg_cursor favorites random s hq hsh h0
  refine ⟨t, hget, hnext, ?_⟩
  intro hlast
  rw [hnext]
  have : (s.currentIndex + 1) % (s.queue.length : Int) = 0 := by
    rw [hlast]
    simp
  simp [Except.map, this]

theorem next_sequential_witness :
    (∃ t, (abcAt 1 trackB).queue.get?
          (((abcAt 1 trackB).currentIndex + 1) % ((abcAt 1 trackB).queue.length : Int)).toNat
          = some t ∧
      next ∅ 0 (abcAt 1 trackB) =
        .ok { abcAt 1 trackB with
              currentTrack := some t
              currentIndex :=
                ((abcAt 1 trackB).currentIndex + 1) % ((abcAt 1 trackB).queue.length : Int)
              isPlaying := true
              liked := decide (t.id ∈ (∅ : Finset TrackId)) } ∧
      ((abcAt 1 trackB).currentIndex = ((abcAt 1 trackB).queue.length : Int) - 1 →
        (next ∅ 0 (abcAt 1 trackB)).map PlayerState.currentIndex = .ok 0)) ∧
    next ∅ 0 (abcAt 1 trackB) = .ok (abcAt 2 trackC) ∧
    next ∅ 0 (abcAt 2 trackC) = .ok (abcAt 0 trackA) :=
  ⟨next_sequential ∅ 0 (abcAt 1 trackB) (by simp [abcAt]) rfl (by simp [abcAt]),
    rfl, rfl⟩

theorem next_playingInOrder (favorites : Finset TrackId) (random : ℚ) (s : PlayerState)
    (hs : PlayingInOrder favorites s) :
    ∃ s', next favorites random s = .ok s' ∧ PlayingInOrder favorites s' ∧ SameFrame s s' ∧
      s'.currentIndex = (s.currentIndex + 1) % (s.queue.length : Int) := by
  obtain ⟨-, hsh, h0, h1, -⟩ := hs
  have hq : s.queue ≠ [] := by
    intro h
    rw [h] at h1
    simp at h1
    omega
  obtain ⟨t, hget, hnext⟩ := next_of_nonneg_cursor favorites random s hq hsh h0
  have hlo : 0 ≤ (s.currentIndex + 1) % (s.queue.length : Int) :=
    Int.emod_nonneg _ (by omega)
  have hhi : (s.currentIndex + 1) % (s.queue.length : Int) < s.queue.length :=
    Int.emod_lt_of_pos _ (by omega)
  exact ⟨_, hnext, ⟨rfl, hsh, hlo, hhi, t, hget, rfl, rfl⟩, ⟨rfl, rfl, rfl⟩, rfl⟩

theorem nextRun_playingInOrder (favorites : Finset TrackId) :
    ∀ (draws : List ℚ) (s : PlayerState), PlayingInOrder favorites s →
      ∃ s', nextRun favorites draws s = .ok s' ∧ PlayingInOrder favorites s' ∧
        SameFrame s s' ∧
        s'.currentIndex = (s.currentIndex + draws.length) % (s.queue.length : Int) := by
  intro draws
  induction draws with
  | nil =>
    intro s hs
    refine ⟨s, rfl, hs, ⟨rfl, rfl, rfl⟩, ?_⟩
    obtain ⟨-, -, h0, h1, -⟩ := hs
    simp only [List.length_nil, Nat.cast_zero, add_zero]
    exact (Int.emod_eq_of_lt h0 h1).symm
  | cons r rs ih =>
    intro s hs
    obtain ⟨s1, hnext, hs1, ⟨hq1, hv1, hsrc1⟩, hi1⟩ := next_playingInOrder favorites r s hs
    obtain ⟨s2, hrun, hs2, ⟨hq2, hv2, hsrc2⟩, hi2⟩ := ih s1 hs1
    refine ⟨s2, ?_, hs2, ⟨hq2.trans hq1, hv2.trans hv1, hsrc2.trans hsrc1⟩, ?_⟩
    · simp only [nextRun, hnext]
      exact hrun
    · rw [hi2, hi1, hq1, Int.emod_add_emod]
      congr 1
      simp only [List.length_cons, Nat.cast_add, Nat.cast_one]
      ring

theorem playingInOrder_ext (favorites : Finset TrackId) (s s' : PlayerState)
    (hs : PlayingInOrder favorites s) (hs' : PlayingInOrder favorites s')
    (hf : SameFrame s s') (hi : s'.currentIndex = s.currentIndex) : s' = s := by
  obtain ⟨hp, hsh, -, -, t, hget, hct, hl⟩ := hs
  obtain ⟨hp', hsh', -, -, t', hget', hct', hl'⟩ := hs'
  obtain ⟨hq, hv, hsrc⟩ := hf
  rw [hq, hi, hget] at hget'
  cases hget'
  cases s
  cases s'
  simp only [PlayerState.mk.injEq] at *
  subst hq hv hsrc hi hp hp' hsh hsh' hct hct' hl hl'
  simp

/-- C5: after `playTracks(T, k, src)` with `0 ≤ k < len(T)` (so `T` is not empty),
running `next` exactly `len(T)` times (whatever the random draws, shuffle being
off) raises nothing and ends in the very state the queue start stored: the
cursor is `k` again and `currentTrack` is `T[k]`. -/
theorem next_wraparound_closure (favorites : Finset TrackId) (s : PlayerState)
    (T : List Track) (k : Int) (src : Option String) (draws : List ℚ)
    (hk0 : 0 ≤ k) (hk1 : k < T.length) (hd : draws.length = T.length) :
    ∃ t s0, T.get? k.toNat = some t ∧
      playTracks favorites s T k src = .ok (JsVal.undefined, s0) ∧
      s0.shuffle = false ∧ s0.currentIndex = k ∧ s0.currentTrack = some t ∧
      nextRun favorites draws s0 = .ok s0 := by
  obtain ⟨t, hget, hplay⟩ := playTracks_of_valid favorites s T k src hk0 hk1
  refine ⟨t, _, hget, hplay, rfl, rfl, rfl, ?_⟩
  have hs0 : PlayingInOrder favorites
      { currentTrack := some t, isPlaying := true, volume := s.volume, queue := T,
        currentIndex := k, shuffle := false, liked := decide (t.id ∈ favorites),
        source := src } := ⟨rfl, rfl, hk0, hk1, t, hget, rfl, rfl⟩
  obtain ⟨s', hrun, hs', hf, hi⟩ := nextRun_playingInOrder favorites draws _ hs0
  have hidx : s'.currentIndex = k := by
    rw [hi, hd]
    simp only [Int.add_emod_self]
    exact Int.emod_eq_of_lt hk0 hk1
  rw [hrun, playingInOrder_ext favorites _ s' hs0 hs' hf hidx]

theorem next_wraparound_closure_witness :
    ∃ t s0, [trackA, trackB, trackC].get? (1 : Int).toNat = some t ∧
      playTracks {2} defaultPlayerState [trackA, trackB, trackC] 1 none
        = .ok (JsVal.undefined, s0) ∧
      s0.shuffle = false ∧ s0.currentIndex = 1 ∧ s0.currentTrack = some t ∧
      nextRun {2} [0, 1 / 2, 9 / 10] s0 = .ok s0 :=
  next_wraparound_closure {2} defaultPlayerState [trackA, trackB, trackC] 1 none
    [0, 1 / 2, 9 / 10] (by decide) (by simp) (by simp)

/-! ## Going back -/

theorem previous_of_no_restart (favorites : Finset TrackId) (random : ℚ)
    (audio : Option Audio) (s : PlayerState) (t : Track) (i : Int)
    (hq : s.queue ≠ []) (ha : ∀ a, audio = some a → a.currentTime ≤ 3)
    (hi : (if s.shuffle then ⌊random * (s.queue.length : ℚ)⌋
            else Int.tmod (s.currentIndex - 1 + s.queue.length) s.queue.length) = i)
    (ht : jsIndex s.queue i = some t) :
    previous favorites random audio s =
      .ok ({ s with
             currentTrack := some t
             currentIndex := i
             isPlaying := true
             liked := decide (t.id ∈ favorites) }, audio) := by
  have hlen : s.queue.length ≠ 0 := fun h => hq (List.length_eq_zero.mp h)
  cases audio with
  | none =>
    unfold previous previousFrom
    rw [if_neg hlen]
    simp only [Bool.false_eq_true, if_false]
    rw [hi, ht]
  | some a =>
    have hn : ¬ a.currentTime > 3 := not_lt.mpr (ha a rfl)
    unfold previous previousFrom
    rw [if_neg hlen]
    simp only [hn, decide_False, Bool.false_eq_true, if_false]
    rw [hi, ht]

/-- C6: with a non-empty queue and an audio element more than 3 seconds into
its track, `previous` raises nothing, sets the element's position to 0 and
leaves the whole player state (cursor, `currentTrack` and every other field)
and the rest of the element as they were; `shuffle` is unconstrained, so this
holds with shuffle on and with shuffle off. -/
theorem previous_restart (favorites : Finset TrackId) (random : ℚ) (a : Audio)
    (s : PlayerState) (hq : s.queue ≠ []) (ht : a.currentTime > 3) :
    previous favorites random (some a) s = .ok (s, some { a with currentTime := 0 }) := by
  have hlen : s.queue.length ≠ 0 := fun h => hq (List.length_eq_zero.mp h)
  unfold previous previousFrom
  rw [if_neg hlen]
  simp [ht]

theorem previous_restart_witness :
    previous ∅ (1 / 2) (some audioLate) (abcAt 1 trackB)
        = .ok (abcAt 1 trackB, some { audioLate with currentTime := 0 }) ∧
      previous ∅ (1 / 2) (some audioLate) { abcAt 1 trackB with shuffle := true }
        = .ok ({ abcAt 1 trackB with shuffle := true },
            some { audioLate with currentTime := 0 }) :=
  ⟨previous_restart ∅ (1 / 2) audioLate (abcAt 1 trackB) (by simp [abcAt])
      (by norm_num [audioLate]),
    previous_restart ∅ (1 / 2) audioLate { abcAt 1 trackB with shuffle := true }
      (by simp [abcAt]) (by norm_num [audioLate])⟩

/-- C7: with a non-empty queue of length `n`, shuffle off, cursor `c` in
`[0, n)` (the proof needs only `0 ≤ c`) and an audio position of at most 3 seconds (3 included; also when no
audio element exists), `previous` raises nothing, sets the cursor to
`(c - 1 + n) mod n` and `currentTrack` to the queue item at that index, leaves
the audio element alone, and from cursor 0 moves to `n - 1`. -/
theorem previous_sequential (favorites : Finset TrackId) (random : ℚ)
    (audio : Option Audio) (s : PlayerState)
    (hq : s.queue ≠ []) (hsh : s.shuffle = false)
    (h0 : 0 ≤ s.currentIndex)
    (ha : ∀ a, audio = some a → a.currentTime ≤ 3) :
    ∃ t, s.queue.get?
          ((s.currentIndex - 1 + s.queue.length) % (s.queue.length : Int)).toNat = some t ∧
      previous favorites random audio s =
        .ok ({ s with
               currentTrack := some t
               currentIndex := (s.currentIndex - 1 + s.queue.length) % (s.queue.length : Int)
               isPlaying := true
               liked := decide (t.id ∈ favorites) }, audio) ∧
      (s.currentIndex = 0 →
        (previous favorites random audio s).map (fun r => r.1.currentIndex)
          = .ok ((s.queue.length : Int) - 1)) := by
  have hpos := length_pos_of_ne_nil s.queue hq
  have hmod : Int.tmod (s.currentIndex - 1 + s.queue.length) s.queue.length
      = (s.currentIndex - 1 + s.queue.length) % (s.queue.length : Int) :=
    Int.tmod_eq_emod (by omega) (by omega)
  have hlo : 0 ≤ (s.currentIndex - 1 + s.queue.length) % (s.queue.length : Int) :=
    Int.emod_nonneg _ (by omega)
  have hhi : (s.currentIndex - 1 + s.queue.length) % (s.queue.length : Int)
      < s.queue.length := Int.emod_lt_of_pos _ (by omega)
  obtain ⟨t, ht, hget⟩ := jsIndex_of_lt s.queue _ hlo hhi
  have hprev := previous_of_no_restart favorites random audio s t _ hq ha
    (by rw [hsh]; simp only [Bool.false_eq_true, if_false]; exact hmod) ht
  refine ⟨t, hget, hprev, ?_⟩
  intro hz
  rw [hprev]
  have : (s.currentIndex - 1 + s.queue.length) % (s.queue.length : Int)
      = (s.queue.length : Int) - 1 := by
    rw [hz]
    have : (0 - 1 + (s.queue.length : Int)) = (s.queue.length : Int) - 1 := by ring
    rw [this]
    exact Int.emod_eq_of_lt (by omega) (by omega)
  simp [Except.map, this]

theorem previous_sequential_witness :
    (∃ t, (abcAt 0 trackA).queue.get?
          (((abcAt 0 trackA).currentIndex - 1 + (abcAt 0 trackA).queue.length)
            % ((abcAt 0 trackA).queue.length : Int)).toNat = some t ∧
      previous ∅ 0 (some audioEarly) (abcAt 0 trackA) =
        .ok ({ abcAt 0 trackA with
               currentTrack := some t
               currentIndex :=
                 ((abcAt 0 trackA).currentIndex - 1 + (abcAt 0 trackA).queue.length)
                   % ((abcAt 0 trackA).queue.length : Int)
               isPlaying := true
               liked := decide (t.id ∈ (∅ : Finset TrackId)) }, some audioEarly) ∧
      ((abcAt 0 trackA).currentIndex = 0 →
        (previous ∅ 0 (some audioEarly) (abcAt 0 trackA)).map (fun r => r.1.currentIndex)
          = .ok (((abcAt 0 trackA).queue.length : Int) - 1))) ∧
    (previous ∅ 0 (some audioEarly) (abcAt 0 trackA)).map Prod.fst = .ok (abcAt 2 trackC) :=
  ⟨previous_sequential ∅ 0 (some audioEarly) (abcAt 0 trackA) (by simp [abcAt]) rfl
      (by simp [abcAt])
      (by intro a h; cases h; norm_num [audioEarly]),
    by
      unfold previous previousFrom
      have h23 : Int.tmod 2 3 = 2 := by decide
      simp [abcAt, audioEarly, jsIndex, Except.map, trackA, trackB, trackC, h23]⟩

/-! ## Empty queue -/

/-- C8: when the queue is empty, `next` and `previous` raise nothing and leave
the player state (and the audio element) exactly as it was, for either value of
`shuffle`, any random draw and any audio position; so `currentTrack` stays
`none` and the cursor stays `-1` when they were. -/
theorem empty_queue_noop (favorites : Finset TrackId) (random : ℚ)
    (audio : Option Audio) (s : PlayerState) (hq : s.queue = []) :
    next favorites random s = .ok s ∧
    previous favorites random audio s = .ok (s, audio) ∧
    (s.currentTrack = none → s.currentIndex = -1 →
      (next favorites random s).map (fun x => (x.currentTrack, x.currentIndex))
        = .ok (none, -1) ∧
      (previous favorites random audio s).map (fun x => (x.1.currentTrack, x.1.currentIndex))
        = .ok (none, -1)) := by
  have hlen : s.queue.length = 0 := by rw [hq]; rfl
  have hn : next favorites random s = .ok s := by
    unfold next nextFrom
    rw [if_pos hlen]
  have hp : previous favorites random audio s = .ok (s, audio) := by
    unfold previous previousFrom
    rw [if_pos hlen]
  refine ⟨hn, hp, ?_⟩
  intro hc hi
  rw [hn, hp]
  simp [Except.map, hc, hi]

theorem empty_queue_noop_witness :
    next {2} (1 / 2) defaultPlayerState = .ok defaultPlayerState ∧
    previous {2} (1 / 2) (some audioLate) defaultPlayerState
      = .ok (defaultPlayerState, some audioLate) ∧
    (defaultPlayerState.currentTrack = none → defaultPlayerState.currentIndex = -1 →
      (next {2} (1 / 2) defaultPlayerState).map (fun x => (x.currentTrack, x.currentIndex))
        = .ok (none, -1) ∧
      (previous {2} (1 / 2) (some audioLate) defaultPlayerState).map
          (fun x => (x.1.currentTrack, x.1.currentIndex))
        = .ok (none, -1)) :=
  empty_queue_noop {2} (1 / 2) (some audioLate) defaultPlayerState rfl

/-! ## Shuffle -/

theorem floor_draw_range (r : ℚ) (n : Nat) (hn : 0 < n) (h0 : 0 ≤ r) (h1 : r < 1) :
    0 ≤ ⌊r * (n : ℚ)⌋ ∧ ⌊r * (n : ℚ)⌋ < (n : Int) := by
  have hnq : (0 : ℚ) < (n : ℚ) := by exact_mod_cast hn
  constructor
  · exact Int.floor_nonneg.mpr (mul_nonneg h0 hnq.le)
  · rw [Int.floor_lt]
    have : r * (n : ℚ) < 1 * (n : ℚ) := mul_lt_mul_of_pos_right h1 hnq
    simpa using this

theorem next_of_shuffle (favorites : Finset TrackId) (random : ℚ) (s : PlayerState)
    (t : Track) (hq : s.queue ≠ []) (hsh : s.shuffle = true)
    (ht : jsIndex s.queue ⌊random * (s.queue.length : ℚ)⌋ = some t) :
    next favorites random s =
      .ok { s with
            currentTrack := some t
            currentIndex := ⌊random * (s.queue.length : ℚ)⌋
            isPlaying := true
            liked := decide (t.id ∈ favorites) } := by
  have hlen : s.queue.length ≠ 0 := fun h => hq (List.length_eq_zero.mp h)
  unfold next nextFrom
  rw [if_neg hlen]
  simp only [hsh, if_true]
  rw [ht]

theorem shuffle_pick (favorites : Finset TrackId) (random : ℚ) (audio : Option Audio)
    (s : PlayerState) (hq : s.queue ≠ []) (hsh : s.shuffle = true)
    (h0 : 0 ≤ random) (h1 : random < 1)
    (ha : ∀ a, audio = some a → a.currentTime ≤ 3) :
    ∃ t, s.queue.get? ⌊random * (s.queue.length : ℚ)⌋.toNat = some t ∧ t ∈ s.queue ∧
      next favorites random s =
        .ok { s with
              currentTrack := some t
              currentIndex := ⌊random * (s.queue.length : ℚ)⌋
              isPlaying := true
              liked := decide (t.id ∈ favorites) } ∧
      previous favorites random audio s =
        .ok ({ s with
               currentTrack := some t
               currentIndex := ⌊random * (s.queue.length : ℚ)⌋
               isPlaying := true
               liked := decide (t.id ∈ favorites) }, audio) := by
  obtain ⟨hlo, hhi⟩ :=
    floor_draw_range random s.queue.length (length_pos_of_ne_nil s.queue hq) h0 h1
  obtain ⟨t, ht, hget⟩ := jsIndex_of_lt s.queue _ hlo hhi
  refine ⟨t, hget, jsIndex_mem s.queue _ t ht, next_of_shuffle favorites random s t hq hsh ht,
    previous_of_no_restart favorites random audio s t _ hq ha ?_ ht⟩
  rw [hsh]
  simp only [if_true]

/-- C10: with shuffle on and a non-empty queue, for a draw `r` in `[0, 1)`
(a) `previous` (when it does not restart the track) stores the same state as
`next`; (b) a state with the same queue and any other cursor gets the same new
cursor and `currentTrack` from `next` and from `previous`; (c) when the cursor
`c` is inside the queue, some draw makes `next` and `previous` keep the cursor
at `c` and the current track at the queue item under it. -/
theorem shuffle_pick_independent (favorites : Finset TrackId) (random : ℚ)
    (audio : Option Audio) (s s' : PlayerState)
    (hq : s.queue ≠ []) (hsh : s.shuffle = true)
    (hq' : s'.queue = s.queue) (hsh' : s'.shuffle = true)
    (h0 : 0 ≤ random) (h1 : random < 1)
    (ha : ∀ a, audio = some a → a.currentTime ≤ 3) :
    (previous favorites random audio s).map Prod.fst = next favorites random s ∧
    (next favorites random s').map (fun x => (x.currentIndex, x.currentTrack))
      = (next favorites random s).map (fun x => (x.currentIndex, x.currentTrack)) ∧
    (previous favorites random audio s').map (fun x => (x.1.currentIndex, x.1.currentTrack))
      = (next favorites random s).map (fun x => (x.currentIndex, x.currentTrack)) ∧
    (0 ≤ s.currentIndex → s.currentIndex < s.queue.length →
      ∃ r, 0 ≤ r ∧ r < 1 ∧
        (next favorites r s).map (fun x => (x.currentIndex, x.currentTrack))
          = .ok (s.currentIndex, s.queue.get? s.currentIndex.toNat) ∧
        (previous favorites r audio s).map (fun x => (x.1.currentIndex, x.1.currentTrack))
          = .ok (s.currentIndex, s.queue.get? s.currentIndex.toNat)) := by
  obtain ⟨t, hget, -, hnext, hprev⟩ := shuffle_pick favorites random audio s hq hsh h0 h1 ha
  obtain ⟨t', hget', -, hnext', hprev'⟩ :=
    shuffle_pick favorites random audio s' (hq' ▸ hq) hsh' h0 h1 ha
  rw [hq', hget] at hget'
  cases hget'
  refine ⟨?_, ?_, ?_, ?_⟩
  · rw [hprev, hnext]
    rfl
  · rw [hnext', hnext, hq']
    rfl
  · rw [hprev', hnext, hq']
    rfl
  · intro hc0 hc1
    have hpos := length_pos_of_ne_nil s.queue hq
    have hnq : (0 : ℚ) < (s.queue.length : ℚ) := by exact_mod_cast hpos
    have hr0 : (0 : ℚ) ≤ (s.currentIndex : ℚ) / (s.queue.length : ℚ) :=
      div_nonneg (by exact_mod_cast hc0) hnq.le
    have hr1 : (s.currentIndex : ℚ) / (s.queue.length : ℚ) < 1 := by
      rw [div_lt_one hnq]
      exact_mod_cast hc1
    have hfl : ⌊(s.currentIndex : ℚ) / (s.queue.length : ℚ) * (s.queue.length : ℚ)⌋
        = s.currentIndex := by
      rw [div_mul_cancel₀ _ hnq.ne']
      exact Int.floor_intCast _
    obtain ⟨u, hu, -, hn, hp⟩ := shuffle_pick favorites _ audio s hq hsh hr0 hr1 ha
    rw [hfl] at hu hn hp
    refine ⟨_, hr0, hr1, ?_, ?_⟩
    · rw [hn, hu]
      rfl
    · rw [hp, hu]
      rfl

theorem shuffle_pick_independent_witness :
    (previous ∅ (1 / 2) (some audioEarly) abcShuffled).map Prod.fst
      = next ∅ (1 / 2) abcShuffled ∧
    (next ∅ (1 / 2) { abcShuffled with currentIndex := 0 }).map
        (fun x => (x.currentIndex, x.currentTrack))
      = (next ∅ (1 / 2) abcShuffled).map (fun x => (x.currentIndex, x.currentTrack)) ∧
    (previous ∅ (1 / 2) (some audioEarly) { abcShuffled with currentIndex := 0 }).map
        (fun x => (x.1.currentIndex, x.1.currentTrack))
      = (next ∅ (1 / 2) abcShuffled).map (fun x => (x.currentIndex, x.currentTrack)) ∧
    (0 ≤ abcShuffled.currentIndex → abcShuffled.currentIndex < abcShuffled.queue.length →
      ∃ r, 0 ≤ r ∧ r < 1 ∧
        (next ∅ r abcShuffled).map (fun x => (x.currentIndex, x.currentTrack))
          = .ok (abcShuffled.currentIndex,
              abcShuffled.queue.get? abcShuffled.currentIndex.toNat) ∧
        (previous ∅ r (some audioEarly) abcShuffled).map
            (fun x => (x.1.currentIndex, x.1.currentTrack))
          = .ok (abcShuffled.currentIndex,
              abcShuffled.queue.get? abcShuffled.currentIndex.toNat)) :=
  shuffle_pick_independent ∅ (1 / 2) (some audioEarly) abcShuffled
    { abcShuffled with currentIndex := 0 } (by simp [abcShuffled, abcAt]) rfl rfl rfl
    (by norm_num) (by norm_num) (by intro a h; cases h; norm_num [audioEarly])

/-! ## End of track -/

/-- C11 (the code at the failing input): the registered `ended` listener
returns without changing any state, whatever the state and the draw; on the
queue `[A, B, C]` positioned on `B` it leaves cursor 1 and track `B`, whereas
`next` on that same state moves to cursor 2 and track `C`. -/
theorem endedListener_stale :
    (∀ (random : ℚ) (s : PlayerState), endedListener random s = .ok s) ∧
    endedListener 0 (abcAt 1 trackB) = .ok (abcAt 1 trackB) ∧
    next ∅ 0 (abcAt 1 trackB) = .ok (abcAt 2 trackC) ∧
    (endedListener 0 (abcAt 1 trackB)).map (fun x => (x.currentIndex, x.currentTrack))
      ≠ (next ∅ 0 (abcAt 1 trackB)).map (fun x => (x.currentIndex, x.currentTrack)) := by
  refine ⟨fun _ _ => rfl, rfl, rfl, ?_⟩
  intro h
  have h' : (Except.ok ((1 : Int), some trackB) : Except JsError (Int × Option Track))
      = Except.ok ((2 : Int), some trackC) := h
  injection h' with h1
  injection h1 with h2 _
  exact absurd h2 (by decide)

/-! ## Volume and position -/

/-- C12 (as stated, refuted): `setVolume(1.4)` stores 1.4, not 1, and
`setVolume(-0.2)` stores -0.2, not 0. -/
theorem setVolume_clamp_counterexample :
    (setVolume (7 / 5) defaultPlayerState).volume = 7 / 5 ∧
    (setVolume (7 / 5) defaultPlayerState).volume ≠ min 1 (max 0 (7 / 5)) ∧
    (setVolume (-1 / 5) defaultPlayerState).volume = -1 / 5 ∧
    (setVolume (-1 / 5) defaultPlayerState).volume ≠ min 1 (max 0 (-1 / 5)) := by
  refine ⟨rfl, ?_, rfl, ?_⟩
  · show (7 / 5 : ℚ) ≠ min 1 (max 0 (7 / 5))
    norm_num
  · show (-1 / 5 : ℚ) ≠ min 1 (max 0 (-1 / 5))
    norm_num

/-- C12 (amended): `setVolume(v)` stores `v` itself and changes no other field;
for `v` in `[0, 1]` that is `min(1, max(0, v))`, and then the stored volume is
within `[0, 1]`. -/
theorem setVolume_stores_argument (v : ℚ) (s : PlayerState) :
    setVolume v s = { s with volume := v } ∧
    (setVolume v s).volume = v ∧
    (0 ≤ v → v ≤ 1 →
      (setVolume v s).volume = min 1 (max 0 v) ∧
      0 ≤ (setVolume v s).volume ∧ (setVolume v s).volume ≤ 1) := by
  refine ⟨rfl, rfl, ?_⟩
  intro h0 h1
  refine ⟨?_, h0, h1⟩
  show v = min 1 (max 0 v)
  rw [max_eq_right h0, min_eq_right h1]

theorem setVolume_stores_argument_witness :
    (0 : ℚ) ≤ 1 / 2 ∧ (1 / 2 : ℚ) ≤ 1 ∧
    (setVolume (1 / 2) defaultPlayerState).volume = min 1 (max 0 (1 / 2)) ∧
    0 ≤ (setVolume (1 / 2) defaultPlayerState).volume ∧
    (setVolume (1 / 2) defaultPlayerState).volume ≤ 1 :=
  ⟨by norm_num, by norm_num,
    (setVolume_stores_argument (1 / 2) defaultPlayerState).2.2 (by norm_num) (by norm_num)⟩

/-- C13 (as stated, refuted): on a track of 180 seconds, `seek(-5)` requests
position -5 and mirrors -5, not 0, and `seek(500)` requests and mirrors 500, not
180. -/
theorem seek_clamp_counterexample :
    seek (-5) (some audioLate) 42 = (some { audioLate with currentTime := -5 }, -5) ∧
    (seek (-5) (some audioLate) 42).2 ≠ min duration180 (max 0 (-5)) ∧
    seek 500 (some audioLate) 42 = (some { audioLate with currentTime := 500 }, 500) ∧
    (seek 500 (some audioLate) 42).2 ≠ min duration180 (max 0 500) := by
  refine ⟨rfl, ?_, rfl, ?_⟩
  · show (-5 : ℚ) ≠ min duration180 (max 0 (-5))
    norm_num [duration180]
  · show (500 : ℚ) ≠ min duration180 (max 0 500)
    norm_num [duration180]

/-- C13 (amended): `seek(t)` does not clamp.  With an audio element it requests
the position `t` itself and mirrors `t` itself into `currentTime`, which is
`min(duration, max(0, t))` when `0 ≤ t ≤ duration`; without an audio element it
changes nothing. -/
theorem seek_stores_argument (t : ℚ) (a : Audio) (currentTime duration : ℚ) :
    seek t (some a) currentTime = (some { a with currentTime := t }, t) ∧
    seek t none currentTime = (none, currentTime) ∧
    (0 ≤ t → t ≤ duration →
      (seek t (some a) currentTime).2 = min duration (max 0 t) ∧
      (seek t (some a) currentTime).1.map Audio.currentTime
        = some (min duration (max 0 t))) := by
  refine ⟨rfl, rfl, ?_⟩
  intro h0 h1
  have h : t = min duration (max 0 t) := by
    rw [max_eq_right h0, min_eq_right h1]
  exact ⟨h, congrArg some h⟩

theorem seek_stores_argument_witness :
    (0 : ℚ) ≤ 60 ∧ (60 : ℚ) ≤ duration180 ∧
    (seek 60 (some audioLate) 42).2 = min duration180 (max 0 60) ∧
    (seek 60 (some audioLate) 42).1.map Audio.currentTime
      = some (min duration180 (max 0 60)) :=
  ⟨by norm_num, by norm_num [duration180],
    (seek_stores_argument 60 audioLate 42 duration180).2.2 (by norm_num)
      (by norm_num [duration180])⟩

/-! ## Favorites -/

theorem toggleLikeBegin_snd (user : Option User) (view : PlayerState)
    (favorites : Finset TrackId) (specificTrack : Option Track) (now : LocalState) :
    (toggleLikeBegin user view favorites specificTrack now).2 = now := by
  unfold toggleLikeBegin
  cases user with
  | none => rfl
  | some u =>
    cases h : (specificTrack <|> view.currentTrack) with
    | none => simp only [h]
    | some x =>
      simp only [h]
      split <;> rfl

theorem toggleLikeBegin_of_target (u : User) (view : PlayerState)
    (favorites : Finset TrackId) (specificTrack : Option Track) (now : LocalState)
    (x : Track) (hx : (specificTrack <|> view.currentTrack) = some x) :
    toggleLikeBegin (some u) view favorites specificTrack now =
      (Pending.awaiting
        (if x.id ∈ favorites then RemoteRequest.deleteFavorite u.id x.id
          else RemoteRequest.insertFavorite u.id x.id)
        x.id (decide (x.id ∈ favorites)), now) := by
  unfold toggleLikeBegin
  simp only [hx]
  by_cases hm : x.id ∈ favorites
  · simp [hm]
  · simp [hm]

theorem toggleLike_of_target (u : User) (specificTrack : Option Track)
    (response : Option RemoteError) (w : LocalState) (x : Track)
    (hx : (specificTrack <|> w.playerState.currentTrack) = some x) :
    toggleLike (some u) specificTrack response w =
      toggleLikeResume w.playerState x.id (decide (x.id ∈ w.favorites)) response w := by
  unfold toggleLike toggleLikeFrom
  rw [toggleLikeBegin_of_target u w.playerState w.favorites specificTrack w x hx]

theorem toggleLike_signed_out (specificTrack : Option Track)
    (response : Option RemoteError) (w : LocalState) :
    toggleLike none specificTrack response w = { thrown := none, state := w } := rfl

theorem toggleLike_no_target (u : User) (specificTrack : Option Track)
    (response : Option RemoteError) (w : LocalState)
    (hx : (specificTrack <|> w.playerState.currentTrack) = none) :
    toggleLike (some u) specificTrack response w = { thrown := none, state := w } := by
  unfold toggleLike toggleLikeFrom toggleLikeBegin
  simp only [hx]

theorem flippedAt_toggle (id : TrackId) (favorites : Finset TrackId) :
    FlippedAt id favorites
      (if decide (id ∈ favorites) = true then favorites.erase id else insert id favorites) := by
  by_cases hm : id ∈ favorites
  · simp only [hm, decide_True, if_true]
    refine ⟨?_, ?_⟩
    · simp [hm]
    · intro other ho
      simp [Finset.mem_erase, ho]
  · simp only [hm, decide_False, Bool.false_eq_true, if_false]
    refine ⟨?_, ?_⟩
    · simp [hm]
    · intro other ho
      simp [Finset.mem_insert, ho]

theorem toggleLike_success_favorites (u : User) (specificTrack : Option Track)
    (w : LocalState) (x : Track)
    (hx : (specificTrack <|> w.playerState.currentTrack) = some x) :
    (toggleLike (some u) specificTrack none w).thrown = none ∧
    FlippedAt x.id w.favorites (toggleLike (some u) specificTrack none w).state.favorites := by
  rw [toggleLike_of_target u specificTrack none w x hx]
  exact ⟨rfl, flippedAt_toggle x.id w.favorites⟩

theorem toggleLike_failure_eq (u : User) (specificTrack : Option Track)
    (error : RemoteError) (w : LocalState) (x : Track)
    (hx : (specificTrack <|> w.playerState.currentTrack) = some x) :
    toggleLike (some u) specificTrack (some error) w = { thrown := some error, state := w } := by
  rw [toggleLike_of_target u specificTrack (some error) w x hx]
  rfl

theorem toggleLikeResume_other (view : PlayerState) (trackId : TrackId)
    (isCurrentlyLiked : Bool) (response : Option RemoteError) (now : LocalState)
    (h : view.currentTrack.map Track.id ≠ some trackId) :
    (toggleLikeResume view trackId isCurrentlyLiked response now).state.playerState
      = now.playerState := by
  cases response with
  | some e => rfl
  | none =>
    unfold toggleLikeResume
    simp only [h, if_false]

theorem toggleLike_playerState_cases (user : Option User) (specificTrack : Option Track)
    (response : Option RemoteError) (w : LocalState) :
    (toggleLike user specificTrack response w).state.playerState = w.playerState ∨
    ∃ x b, (specificTrack <|> w.playerState.currentTrack) = some x ∧
      w.playerState.currentTrack.map Track.id = some x.id ∧
      (toggleLike user specificTrack response w).state.playerState
        = { w.playerState with liked := b } := by
  cases user with
  | none => exact Or.inl rfl
  | some u =>
    cases hx : (specificTrack <|> w.playerState.currentTrack) with
    | none =>
      left
      rw [toggleLike_no_target u specificTrack response w hx]
    | some x =>
      rw [toggleLike_of_target u specificTrack response w x hx]
      by_cases hc : w.playerState.currentTrack.map Track.id = some x.id
      · cases response with
        | some e => exact Or.inl rfl
        | none =>
          right
          refine ⟨x, !decide (x.id ∈ w.favorites), rfl, hc, ?_⟩
          unfold toggleLikeResume
          simp only [hc, if_true]
      · exact Or.inl (toggleLikeResume_other _ _ _ _ _ hc)

/-- C14 (the code at the failing input): a signed-in identity with current
track `B` clicks the player's like button, a call that names no track.  The
callback takes the click event for the track: the request carries no track id
and, although it succeeds, the favorites set is the prior one, so the
membership of `B` is not flipped; this holds for every state, identity and
answer.  The same call without an argument sends the insert for `B` and flips
the membership of `B`, as the claim says. -/
theorem likeButton_misses_current_track :
    (∀ (u : User) (holdsUndefined : Bool) (response : Option RemoteError) (w : LocalState),
      (likeButtonClick (some u) holdsUndefined response w).outcome.state.favorites
        = w.favorites ∧
      (likeButtonClick (some u) holdsUndefined response w).request
        = some ⟨holdsUndefined, u.id, none⟩) ∧
    onB.playerState.currentTrack = some trackB ∧
    (likeButtonClick (some userU) false none onB).request = some ⟨false, 7, none⟩ ∧
    (likeButtonClick (some userU) false none onB).outcome = { thrown := none, state := onB } ∧
    trackB.id ∉ (likeButtonClick (some userU) false none onB).outcome.state.favorites ∧
    ¬ FlippedAt trackB.id onB.favorites
        (likeButtonClick (some userU) false none onB).outcome.state.favorites ∧
    (toggleLikeCall (some userU) LikeArgument.absent false none onB).request
      = some ⟨false, 7, some 2⟩ ∧
    (toggleLikeCall (some userU) LikeArgument.absent false none onB).outcome
      = toggleLike (some userU) none none onB ∧
    trackB.id ∈
      (toggleLikeCall (some userU) LikeArgument.absent false none onB).outcome.state.favorites ∧
    FlippedAt trackB.id onB.favorites
      (toggleLikeCall (some userU) LikeArgument.absent false none onB).outcome.state.favorites := by
  have hno : trackB.id ∉ onB.favorites := by simp [onB]
  have hn : ((none : Option Track) <|> onB.playerState.currentTrack) = some trackB := rfl
  have hflip := (toggleLike_success_favorites userU none onB trackB hn).2
  refine ⟨?_, rfl, rfl, rfl, hno, ?_, rfl, rfl, hflip.1.mpr hno, hflip⟩
  · intro u holdsUndefined response w
    cases response with
    | some e => exact ⟨rfl, rfl⟩
    | none => exact ⟨rfl, rfl⟩
  · intro h
    exact hno (h.1.mpr hno)

/-- C15 (as stated, refuted): with current track `B`, a `toggleLike` on track
`A` by nobody signed in, and one whose remote request fails, leave the
membership of `A` as it was, so not every such call flips it. -/
theorem toggleLike_other_counterexample :
    onB.playerState.currentTrack = some trackB ∧ trackB.id ≠ trackA.id ∧
    (toggleLike none (some trackA) none onB).state.favorites = onB.favorites ∧
    ¬ FlippedAt trackA.id onB.favorites
        (toggleLike none (some trackA) none onB).state.favorites ∧
    (toggleLike (some userU) (some trackA) (some remoteFailure) onB).state.favorites
      = onB.favorites ∧
    ¬ FlippedAt trackA.id onB.favorites
        (toggleLike (some userU) (some trackA) (some remoteFailure) onB).state.favorites := by
  have hflip : ¬ FlippedAt trackA.id onB.favorites onB.favorites := by
    intro h
    have hno : trackA.id ∉ onB.favorites := by simp [onB]
    exact hno (h.1.mpr hno)
  refine ⟨rfl, by decide, rfl, hflip, rfl, hflip⟩

/-- C15 (amended): while the current track is `Y`, every `toggleLike` call on a
track `X` with `Y.id ≠ X.id` leaves every field of the player state, `liked`
included, unchanged; the membership of `X.id` is flipped when an identity is
signed in and the remote request succeeds; and any `toggleLike` call that
changes the player state targets a track with the current track's id and
writes `liked` only. -/
theorem toggleLike_other_frame (user : Option User) (response : Option RemoteError)
    (w : LocalState) (x y : Track)
    (hy : w.playerState.currentTrack = some y) (hne : y.id ≠ x.id) :
    (toggleLike user (some x) response w).state.playerState = w.playerState ∧
    (∀ u, user = some u → response = none →
      FlippedAt x.id w.favorites (toggleLike user (some x) response w).state.favorites) ∧
    (∀ specificTrack,
      (toggleLike user specificTrack response w).state.playerState ≠ w.playerState →
      ∃ z b, (specificTrack <|> w.playerState.currentTrack) = some z ∧ z.id = y.id ∧
        (toggleLike user specificTrack response w).state.playerState
          = { w.playerState with liked := b }) := by
  have he : ((some x : Option Track) <|> w.playerState.currentTrack) = some x := rfl
  refine ⟨?_, ?_, ?_⟩
  · rcases toggleLike_playerState_cases user (some x) response w with h | ⟨z, b, hz, hc, -⟩
    · exact h
    · rw [he] at hz
      cases hz
      rw [hy] at hc
      simp only [Option.map_some', Option.some.injEq] at hc
      exact absurd hc hne
  · intro u hu hr
    subst hu hr
    exact (toggleLike_success_favorites u (some x) w x he).2
  · intro specificTrack hch
    rcases toggleLike_playerState_cases user specificTrack response w with h | ⟨z, b, hz, hc, hs⟩
    · exact absurd h hch
    · rw [hy] at hc
      simp only [Option.map_some', Option.some.injEq] at hc
      exact ⟨z, b, hz, hc.symm, hs⟩

theorem toggleLike_other_frame_witness :
    onB.playerState.currentTrack = some trackB ∧ trackB.id ≠ trackA.id ∧
    (toggleLike (some userU) (some trackA) none onB).state.playerState = onB.playerState ∧
    FlippedAt trackA.id onB.favorites
      (toggleLike (some userU) (some trackA) none onB).state.favorites :=
  ⟨rfl, by decide,
    (toggleLike_other_frame (some userU) none onB trackA trackB rfl (by decide)).1,
    (toggleLike_other_frame (some userU) none onB trackA trackB rfl (by decide)).2.1
      userU rfl rfl⟩

theorem toggleLikeBegin_awaiting (user : Option User) (view : PlayerState)
    (favorites : Finset TrackId) (specificTrack : Option Track) (now : LocalState)
    (request : RemoteRequest) (trackId : TrackId) (isCurrentlyLiked : Bool)
    (h : (toggleLikeBegin user view favorites specificTrack now).1
      = Pending.awaiting request trackId isCurrentlyLiked) :
    ∃ u x, user = some u ∧ (specificTrack <|> view.currentTrack) = some x ∧
      trackId = x.id ∧ isCurrentlyLiked = decide (x.id ∈ favorites) ∧
      request = (if x.id ∈ favorites then RemoteRequest.deleteFavorite u.id x.id
        else RemoteRequest.insertFavorite u.id x.id) := by
  cases user with
  | none => cases h
  | some u =>
    cases hx : (specificTrack <|> view.currentTrack) with
    | none =>
      unfold toggleLikeBegin at h
      simp only [hx] at h
      cases h
    | some x =>
      rw [toggleLikeBegin_of_target u view favorites specificTrack now x hx] at h
      injection h with h1 h2 h3
      exact ⟨u, x, rfl, rfl, h2.symm, h3.symm, h1.symm⟩

/-- C16: when the remote add or remove that `toggleLike` issued fails, the call
throws the error of the answer to its caller and the local state after it is
the state before it: the favorites set and the `liked` flag (and every other
field) are unchanged. -/
theorem toggleLike_failure (user : Option User) (specificTrack : Option Track)
    (error : RemoteError) (w : LocalState)
    (request : RemoteRequest) (trackId : TrackId) (isCurrentlyLiked : Bool)
    (h : (toggleLikeBegin user w.playerState w.favorites specificTrack w).1
      = Pending.awaiting request trackId isCurrentlyLiked) :
    toggleLike user specificTrack (some error) w = { thrown := some error, state := w } ∧
    (toggleLike user specificTrack (some error) w).state.favorites = w.favorites ∧
    (toggleLike user specificTrack (some error) w).state.playerState.liked
      = w.playerState.liked := by
  obtain ⟨u, x, hu, hx, -, -, -⟩ :=
    toggleLikeBegin_awaiting user w.playerState w.favorites specificTrack w request trackId
      isCurrentlyLiked h
  subst hu
  have hf := toggleLike_failure_eq u specificTrack error w x hx
  rw [hf]
  exact ⟨rfl, rfl, rfl⟩

theorem toggleLike_failure_witness :
    (toggleLikeBegin (some userU) onB.playerState onB.favorites none onB).1
      = Pending.awaiting (RemoteRequest.insertFavorite 7 2) 2 false ∧
    toggleLike (some userU) none (some remoteFailure) onB
      = { thrown := some remoteFailure, state := onB } ∧
    (toggleLike (some userU) none (some remoteFailure) onB).state.favorites = onB.favorites ∧
    (toggleLike (some userU) none (some remoteFailure) onB).state.playerState.liked
      = onB.playerState.liked :=
  ⟨rfl, toggleLike_failure (some userU) none remoteFailure onB
    (RemoteRequest.insertFavorite 7 2) 2 false rfl⟩

/-- C17 (as stated, refuted): a signed-in identity toggles the absent track
`A`.  When the insert request is issued the local favorites set is still the
prior one, without `A`; `A` enters the set only once the request has
succeeded. -/
theorem toggleLike_optimistic_counterexample :
    toggleLikeBegin (some userU) onB.playerState onB.favorites (some trackA) onB
      = (Pending.awaiting (RemoteRequest.insertFavorite 7 1) 1 false, onB) ∧
    trackA.id ∉
      (toggleLikeBegin (some userU) onB.playerState onB.favorites (some trackA) onB).2.favorites ∧
    trackA.id ∈ (toggleLike (some userU) (some trackA) none onB).state.favorites := by
  refine ⟨rfl, ?_, ?_⟩
  · rw [toggleLikeBegin_snd]
    simp [onB]
  · have he : ((some trackA : Option Track) <|> onB.playerState.currentTrack) = some trackA :=
      rfl
    have hno : trackA.id ∉ onB.favorites := by simp [onB]
    exact ((toggleLike_success_favorites userU (some trackA) onB trackA he).2.1).mpr hno

/-- C17 (amended): in `toggleLike` the remote call precedes the local update.
When the request is issued the local state is exactly the prior state, so a
read of the favorites set while the call is in flight shows the old
membership; the set is changed (add when absent, remove when present) only
when the answer reports success, and left alone when it reports an error. -/
theorem toggleLike_remote_first (user : Option User) (view : PlayerState)
    (favorites : Finset TrackId) (specificTrack : Option Track) (now : LocalState)
    (request : RemoteRequest) (trackId : TrackId) (isCurrentlyLiked : Bool)
    (h : (toggleLikeBegin user view favorites specificTrack now).1
      = Pending.awaiting request trackId isCurrentlyLiked) :
    (toggleLikeBegin user view favorites specificTrack now).2 = now ∧
    (trackId ∈ (toggleLikeBegin user view favorites specificTrack now).2.favorites
      ↔ trackId ∈ now.favorites) ∧
    isCurrentlyLiked = decide (trackId ∈ favorites) ∧
    (toggleLikeResume view trackId isCurrentlyLiked none now).state.favorites
      = (if isCurrentlyLiked then now.favorites.erase trackId
          else insert trackId now.favorites) ∧
    (∀ error,
      (toggleLikeResume view trackId isCurrentlyLiked (some error) now).state = now) := by
  obtain ⟨u, x, -, -, hid, hl, -⟩ :=
    toggleLikeBegin_awaiting user view favorites specificTrack now request trackId
      isCurrentlyLiked h
  refine ⟨toggleLikeBegin_snd _ _ _ _ _, ?_, ?_, rfl, fun _ => rfl⟩
  · rw [toggleLikeBegin_snd]
  · rw [hl, hid]

theorem toggleLike_remote_first_witness :
    (toggleLikeBegin (some userU) onB.playerState onB.favorites (some trackA) onB).1
      = Pending.awaiting (RemoteRequest.insertFavorite 7 1) 1 false ∧
    (toggleLikeBegin (some userU) onB.playerState onB.favorites (some trackA) onB).2 = onB ∧
    ((1 : TrackId) ∈
        (toggleLikeBegin (some userU) onB.playerState onB.favorites (some trackA) onB).2.favorites
      ↔ (1 : TrackId) ∈ onB.favorites) ∧
    false = decide ((1 : TrackId) ∈ onB.favorites) ∧
    (toggleLikeResume onB.playerState 1 false none onB).state.favorites
      = (if false then onB.favorites.erase 1 else insert 1 onB.favorites) ∧
    (∀ error, (toggleLikeResume onB.playerState 1 false (some error) onB).state = onB) :=
  ⟨rfl, toggleLike_remote_first (some userU) onB.playerState onB.favorites (some trackA) onB
    (RemoteRequest.insertFavorite 7 1) 1 false rfl⟩

/-! ## Play and pause -/

theorem togglePlay_resume (s : PlayerState) (first : Track) (rest : List Track)
    (hc : s.currentTrack = none) (hq : s.queue = first :: rest) :
    togglePlay s =
      { s with currentTrack := some first, currentIndex := 0, isPlaying := true } := by
  unfold togglePlay togglePlayFrom
  rw [if_pos ⟨hc, by rw [hq]; simp⟩, hq]
  rfl

theorem togglePlay_flip (s : PlayerState) (h : ¬ (s.currentTrack = none ∧ s.queue ≠ [])) :
    togglePlay s = { s with isPlaying := !s.isPlaying } := by
  unfold togglePlay togglePlayFrom
  rw [if_neg]
  intro hc
  exact h ⟨hc.1, fun hq => by rw [hq] at hc; exact absurd hc.2 (by simp)⟩

theorem togglePlay_eq_spec (s : PlayerState) : togglePlay s = togglePlaySpec s := by
  cases hc : s.currentTrack with
  | some t =>
    rw [togglePlay_flip s (fun h => by rw [hc] at h; exact absurd h.1 (by simp))]
    unfold togglePlaySpec
    rw [hc]
  | none =>
    cases hq : s.queue with
    | nil =>
      rw [togglePlay_flip s (fun h => h.2 hq)]
      unfold togglePlaySpec
      rw [hc, hq]
    | cons first rest =>
      rw [togglePlay_resume s first rest hc hq]
      unfold togglePlaySpec
      rw [hc, hq]

/-- C20: `togglePlay` equals its reference definition `togglePlaySpec`.  With no
current track and a non-empty queue it sets `currentTrack` to the first queue
item, the cursor to 0 and `isPlaying` to true; in every other case it only
negates `isPlaying` (queue, cursor, `currentTrack`, shuffle, `liked`, source and
volume stay); two calls in a row on a state with a current track give that
state back. -/
theorem togglePlay_refines (s : PlayerState) :
    togglePlay s = togglePlaySpec s ∧
    (∀ first rest, s.currentTrack = none → s.queue = first :: rest →
      togglePlay s =
        { s with currentTrack := some first, currentIndex := 0, isPlaying := true }) ∧
    (¬ (s.currentTrack = none ∧ s.queue ≠ []) →
      togglePlay s = { s with isPlaying := !s.isPlaying }) ∧
    (s.currentTrack ≠ none → togglePlay (togglePlay s) = s) := by
  refine ⟨togglePlay_eq_spec s, fun first rest hc hq => togglePlay_resume s first rest hc hq,
    togglePlay_flip s, ?_⟩
  intro hc
  have h1 : ¬ (s.currentTrack = none ∧ s.queue ≠ []) := fun h => hc h.1
  rw [togglePlay_flip s h1]
  have h2 : ¬ (({ s with isPlaying := !s.isPlaying } : PlayerState).currentTrack = none ∧
      ({ s with isPlaying := !s.isPlaying } : PlayerState).queue ≠ []) := fun h => hc h.1
  rw [togglePlay_flip _ h2]
  cases s
  simp

theorem togglePlay_refines_witness :
    (togglePlay { abcAt (-1) trackA with currentTrack := none, isPlaying := false } =
      { abcAt 0 trackA with currentTrack := some trackA }) ∧
    togglePlay (abcAt 1 trackB) = { abcAt 1 trackB with isPlaying := false } ∧
    togglePlay defaultPlayerState = { defaultPlayerState with isPlaying := true } ∧
    togglePlay (togglePlay (abcAt 1 trackB)) = abcAt 1 trackB :=
  ⟨(togglePlay_refines
      { abcAt (-1) trackA with currentTrack := none, isPlaying := false }).2.1
      trackA [trackB, trackC] rfl rfl,
    (togglePlay_refines (abcAt 1 trackB)).2.2.1 (fun h => absurd h.1 (by simp [abcAt])),
    (togglePlay_refines defaultPlayerState).2.2.1 (fun h => h.2 rfl),
    (togglePlay_refines (abcAt 1 trackB)).2.2.2 (by simp [abcAt])⟩

/-! ## Reachable states -/

theorem wellFormed_congr (s s' : PlayerState) (hq : s'.queue = s.queue)
    (hi : s'.currentIndex = s.currentIndex) (hc : s'.currentTrack = s.currentTrack)
    (h : WellFormed s) : WellFormed s' := by
  unfold WellFormed at *
  rw [hq, hi, hc]
  exact h

theorem wellFormed_of_index (s : PlayerState) (t : Track)
    (h0 : 0 ≤ s.currentIndex) (h1 : s.currentIndex < s.queue.length)
    (hget : s.queue.get? s.currentIndex.toNat = some t) (hc : s.currentTrack = some t) :
    WellFormed s :=
  Or.inr ⟨h0, h1, t, hget, hc⟩

theorem wellFormed_cursor_nonneg_of_queue (s : PlayerState) (h : WellFormed s)
    (hq : s.queue ≠ []) : 0 ≤ s.currentIndex := by
  rcases h with ⟨he, -, -⟩ | ⟨h0, -, -⟩
  · exact absurd he hq
  · exact h0

theorem previous_of_restart (favorites : Finset TrackId) (random : ℚ) (a : Audio)
    (s : PlayerState) (hq : s.queue ≠ []) (ht : a.currentTime > 3) :
    previous favorites random (some a) s = .ok (s, some { a with currentTime := 0 }) := by
  have hlen : s.queue.length ≠ 0 := fun h => hq (List.length_eq_zero.mp h)
  unfold previous previousFrom
  rw [if_neg hlen]
  simp [ht]

theorem next_wellFormed (favorites : Finset TrackId) (random : ℚ) (s : PlayerState)
    (h : WellFormed s) (h0 : 0 ≤ random) (h1 : random < 1) :
    ∃ s', next favorites random s = .ok s' ∧ WellFormed s' := by
  by_cases hq : s.queue = []
  · refine ⟨s, ?_, h⟩
    unfold next nextFrom
    rw [if_pos (by rw [hq]; rfl)]
  · have hpos := length_pos_of_ne_nil s.queue hq
    cases hsh : s.shuffle with
    | true =>
      obtain ⟨t, hget, -, hn, -⟩ :=
        shuffle_pick favorites random none s hq hsh h0 h1 (fun a ha => by cases ha)
      obtain ⟨hlo, hhi⟩ := floor_draw_range random s.queue.length hpos h0 h1
      exact ⟨_, hn, wellFormed_of_index _ t hlo hhi hget rfl⟩
    | false =>
      have hc := wellFormed_cursor_nonneg_of_queue s h hq
      obtain ⟨t, hget, hn⟩ := next_of_nonneg_cursor favorites random s hq hsh hc
      exact ⟨_, hn, wellFormed_of_index _ t (Int.emod_nonneg _ (by omega))
        (Int.emod_lt_of_pos _ (by omega)) hget rfl⟩

theorem previous_wellFormed (favorites : Finset TrackId) (random : ℚ)
    (audio : Option Audio) (s : PlayerState)
    (h : WellFormed s) (h0 : 0 ≤ random) (h1 : random < 1) :
    ∃ r, previous favorites random audio s = .ok r ∧ WellFormed r.1 := by
  by_cases hq : s.queue = []
  · refine ⟨(s, audio), ?_, h⟩
    unfold previous previousFrom
    rw [if_pos (by rw [hq]; rfl)]
  · have hpos := length_pos_of_ne_nil s.queue hq
    by_cases ha : ∀ a, audio = some a → a.currentTime ≤ 3
    · cases hsh : s.shuffle with
      | true =>
        obtain ⟨t, hget, -, -, hp⟩ := shuffle_pick favorites random audio s hq hsh h0 h1 ha
        obtain ⟨hlo, hhi⟩ := floor_draw_range random s.queue.length hpos h0 h1
        exact ⟨_, hp, wellFormed_of_index _ t hlo hhi hget rfl⟩
      | false =>
        have hc := wellFormed_cursor_nonneg_of_queue s h hq
        have hmod : Int.tmod (s.currentIndex - 1 + s.queue.length) s.queue.length
            = (s.currentIndex - 1 + s.queue.length) % (s.queue.length : Int) :=
          Int.tmod_eq_emod (by omega) (by omega)
        have hlo : 0 ≤ (s.currentIndex - 1 + s.queue.length) % (s.queue.length : Int) :=
          Int.emod_nonneg _ (by omega)
        have hhi : (s.currentIndex - 1 + s.queue.length) % (s.queue.length : Int)
            < s.queue.length := Int.emod_lt_of_pos _ (by omega)
        obtain ⟨t, ht, hget⟩ := jsIndex_of_lt s.queue _ hlo hhi
        have hp := previous_of_no_restart favorites random audio s t _ hq ha
          (by rw [hsh]; simp only [Bool.false_eq_true, if_false]; exact hmod) ht
        exact ⟨_, hp, wellFormed_of_index _ t hlo hhi hget rfl⟩
    · push_neg at ha
      obtain ⟨a, rfl, hgt⟩ := ha
      exact ⟨_, previous_of_restart favorites random a s hq hgt, h⟩

theorem playTracks_wellFormed (favorites : Finset TrackId) (s : PlayerState)
    (tracks : List Track) (startIndex : Int) (source : Option String)
    (h : WellFormed s) :
    ∃ r, playTracks favorites s tracks startIndex source = .ok r ∧ WellFormed r.2 := by
  by_cases hg : tracks.length = 0 ∨ startIndex < 0 ∨ startIndex ≥ (tracks.length : Int)
  · refine ⟨(JsVal.undefined, s), ?_, h⟩
    unfold playTracks playTracksFrom
    rw [if_pos hg]
  · have h0 : 0 ≤ startIndex := by
      by_contra hc
      exact hg (Or.inr (Or.inl (by omega)))
    have h1 : startIndex < tracks.length := by
      by_contra hc
      exact hg (Or.inr (Or.inr (by omega)))
    obtain ⟨t, hget, hp⟩ := playTracks_of_valid favorites s tracks startIndex source h0 h1
    exact ⟨_, hp, wellFormed_of_index _ t h0 h1 hget rfl⟩

theorem togglePlay_wellFormed (s : PlayerState) (h : WellFormed s) :
    WellFormed (togglePlay s) := by
  have hn : ¬ (s.currentTrack = none ∧ s.queue ≠ []) := by
    rintro ⟨hc, hq⟩
    rcases h with ⟨he, -, -⟩ | ⟨-, -, t, -, ht⟩
    · exact hq he
    · rw [ht] at hc
      cases hc
  rw [togglePlay_flip s hn]
  exact wellFormed_congr s _ rfl rfl rfl h

theorem applyAction_wellFormed (a : Action) (w : LocalState)
    (h : WellFormed w.playerState) (ha : a.DrawsInRange) :
    ∃ w', applyAction a w = .ok w' ∧ WellFormed w'.playerState := by
  cases a with
  | playTrack track source =>
    exact ⟨_, rfl, wellFormed_of_index _ track (le_refl 0) (by simp [playTrack, playTrackFrom])
      rfl rfl⟩
  | playTracks tracks startIndex source =>
    obtain ⟨r, hr, hw⟩ :=
      playTracks_wellFormed w.favorites w.playerState tracks startIndex source h
    refine ⟨{ w with playerState := r.2 }, ?_, hw⟩
    simp only [applyAction, hr]
    rfl
  | togglePlay => exact ⟨_, rfl, togglePlay_wellFormed w.playerState h⟩
  | next random =>
    obtain ⟨s', hs, hw⟩ := next_wellFormed w.favorites random w.playerState h ha.1 ha.2
    refine ⟨{ w with playerState := s' }, ?_, hw⟩
    simp only [applyAction, hs]
    rfl
  | previous random audio =>
    obtain ⟨r, hr, hw⟩ :=
      previous_wellFormed w.favorites random audio w.playerState h ha.1 ha.2
    refine ⟨{ w with playerState := r.1 }, ?_, hw⟩
    simp only [applyAction, hr]
    rfl
  | toggleShuffle => exact ⟨_, rfl, wellFormed_congr w.playerState _ rfl rfl rfl h⟩
  | toggleLike user specificTrack response =>
    refine ⟨_, rfl, ?_⟩
    rcases toggleLike_playerState_cases user specificTrack response w with hs | ⟨_, _, _, _, hs⟩
    · rw [hs]
      exact h
    · rw [hs]
      exact wellFormed_congr w.playerState _ rfl rfl rfl h
  | setVolume volume => exact ⟨_, rfl, wellFormed_congr w.playerState _ rfl rfl rfl h⟩
  | seek time audio currentTime => exact ⟨w, rfl, h⟩

theorem runActions_wellFormed :
    ∀ (actions : List Action) (w : LocalState), WellFormed w.playerState →
      (∀ a ∈ actions, a.DrawsInRange) →
      ∃ w', runActions actions w = .ok w' ∧ WellFormed w'.playerState := by
  intro actions
  induction actions with
  | nil =>
    intro w h _
    exact ⟨w, rfl, h⟩
  | cons a as ih =>
    intro w h hv
    obtain ⟨w1, h1, hw1⟩ := applyAction_wellFormed a w h (hv a (List.mem_cons_self a as))
    obtain ⟨w2, h2, hw2⟩ := ih w1 hw1 (fun b hb => hv b (List.mem_cons_of_mem a hb))
    refine ⟨w2, ?_, hw2⟩
    simp only [runActions, h1]
    exact h2

theorem wellFormed_default : WellFormed initialState.playerState :=
  Or.inl ⟨rfl, rfl, rfl⟩

/-- C18: every sequence of calls of `playTrack`, `playTracks`, `togglePlay`,
`next`, `previous`, `toggleShuffle`, `toggleLike`, `setVolume` and `seek` from
the initial state (random draws in `[0, 1)`) raises nothing and ends in a
well-formed state: either the queue is empty, the cursor is `-1` and there is
no current track, or `0 ≤ cursor < queue.length` and the current track is the
queue item at the cursor. -/
theorem reachable_wellFormed (actions : List Action)
    (hv : ∀ a ∈ actions, a.DrawsInRange) :
    ∃ w, runActions actions initialState = .ok w ∧
      ((w.playerState.queue = [] ∧ w.playerState.currentIndex = -1 ∧
          w.playerState.currentTrack = none) ∨
        (0 ≤ w.playerState.currentIndex ∧
          w.playerState.currentIndex < w.playerState.queue.length ∧
          ∃ t, w.playerState.queue.get? w.playerState.currentIndex.toNat = some t ∧
            w.playerState.currentTrack = some t)) :=
  runActions_wellFormed actions initialState wellFormed_default hv

theorem sampleSession_drawsInRange : ∀ a ∈ sampleSession, a.DrawsInRange := by
  intro a ha
  simp only [sampleSession, List.mem_cons, List.mem_singleton, List.not_mem_nil, or_false] at ha
  rcases ha with rfl | rfl | rfl | rfl | rfl | rfl | rfl | rfl | rfl | rfl | rfl <;>
    simp only [Action.DrawsInRange] <;> norm_num

theorem reachable_wellFormed_witness :
    (∀ a ∈ sampleSession, a.DrawsInRange) ∧
    ∃ w, runActions sampleSession initialState = .ok w ∧
      ((w.playerState.queue = [] ∧ w.playerState.currentIndex = -1 ∧
          w.playerState.currentTrack = none) ∨
        (0 ≤ w.playerState.currentIndex ∧
          w.playerState.currentIndex < w.playerState.queue.length ∧
          ∃ t, w.playerState.queue.get? w.playerState.currentIndex.toNat = some t ∧
            w.playerState.currentTrack = some t)) :=
  ⟨sampleSession_drawsInRange, reachable_wellFormed sampleSession sampleSession_drawsInRange⟩

/-- C19 (as stated, refuted): `togglePlay` on the initial state gives a
reachable state with `isPlaying = true` and no current track. -/
theorem togglePlay_initial_counterexample :
    (∀ a ∈ [Action.togglePlay], a.DrawsInRange) ∧
    runActions [Action.togglePlay] initialState =
      .ok { initialState with
            playerState := { defaultPlayerState with isPlaying := true } } ∧
    togglePlay defaultPlayerState = { defaultPlayerState with isPlaying := true } ∧
    (togglePlay defaultPlayerState).isPlaying = true ∧
    (togglePlay defaultPlayerState).currentTrack = none := by
  refine ⟨?_, rfl, rfl, rfl, rfl⟩
  intro a ha
  simp only [List.mem_singleton] at ha
  subst ha
  trivial

/-- C19 (amended): in every state reachable from the initial state through the
public operations, a non-empty queue has a current track, so `isPlaying = true`
implies a current track whenever something is queued; a reachable state that is
playing with no current track has an empty queue and cursor `-1` (the state
`togglePlay` produces from the initial state). -/
theorem reachable_playing (actions : List Action)
    (hv : ∀ a ∈ actions, a.DrawsInRange) :
    ∃ w, runActions actions initialState = .ok w ∧
      (w.playerState.queue ≠ [] → w.playerState.isPlaying = true →
        w.playerState.currentTrack ≠ none) ∧
      (w.playerState.isPlaying = true → w.playerState.currentTrack = none →
        w.playerState.queue = [] ∧ w.playerState.currentIndex = -1) := by
  obtain ⟨w, hw, hwf⟩ := runActions_wellFormed actions initialState wellFormed_default hv
  refine ⟨w, hw, ?_, ?_⟩
  · intro hq _ hc
    rcases hwf with ⟨he, -, -⟩ | ⟨-, -, t, -, ht⟩
    · exact hq he
    · rw [ht] at hc
      cases hc
  · intro _ hc
    rcases hwf with ⟨he, hi, -⟩ | ⟨-, -, t, -, ht⟩
    · exact ⟨he, hi⟩
    · rw [ht] at hc
      cases hc

theorem reachable_playing_witness :
    (∀ a ∈ sampleSession, a.DrawsInRange) ∧
    ∃ w, runActions sampleSession initialState = .ok w ∧
      (w.playerState.queue ≠ [] → w.playerState.isPlaying = true →
        w.playerState.currentTrack ≠ none) ∧
      (w.playerState.isPlaying = true → w.playerState.currentTrack = none →
        w.playerState.queue = [] ∧ w.playerState.currentIndex = -1) :=
  ⟨sampleSession_drawsInRange, reachable_playing sampleSession sampleSession_drawsInRange⟩

/-! ## Shuffle flag and single tracks -/

/-- C21: `toggleShuffle` only negates the shuffle flag; the queue (no
reshuffle), cursor, `currentTrack`, `isPlaying`, `liked`, source and volume are
unchanged, and two calls in a row give the original state back. -/
theorem toggleShuffle_frame (s : PlayerState) :
    toggleShuffle s = { s with shuffle := !s.shuffle } ∧
    (toggleShuffle s).shuffle = !s.shuffle ∧
    (toggleShuffle s).queue = s.queue ∧
    (toggleShuffle s).currentIndex = s.currentIndex ∧
    (toggleShuffle s).currentTrack = s.currentTrack ∧
    (toggleShuffle s).isPlaying = s.isPlaying ∧
    (toggleShuffle s).liked = s.liked ∧
    (toggleShuffle s).source = s.source ∧
    (toggleShuffle s).volume = s.volume ∧
    toggleShuffle (toggleShuffle s) = s := by
  refine ⟨rfl, rfl, rfl, rfl, rfl, rfl, rfl, rfl, rfl, ?_⟩
  cases s
  simp [toggleShuffle]

/-- C22: `playTrack(track, source)` and `playTracks([track], 0, source)` store
the same player state for every track, source and prior state: a one-item
queue, cursor 0, `currentTrack = track`, `isPlaying = true`, `shuffle = false`,
the given source (and the prior volume and `liked` from the favorites). -/
theorem playTrack_eq_playTracks (favorites : Finset TrackId) (s : PlayerState)
    (track : Track) (source : Option String) :
    playTracks favorites s [track] 0 source
      = .ok (JsVal.undefined, playTrack favorites s track source) ∧
    playTrack favorites s track source =
      { currentTrack := some track
        isPlaying := true
        volume := s.volume
        queue := [track]
        currentIndex := 0
        shuffle := false
        liked := decide (track.id ∈ favorites)
        source := source } := by
  refine ⟨?_, rfl⟩
  obtain ⟨t, hget, hp⟩ :=
    playTracks_of_valid favorites s [track] 0 source (le_refl 0) (by simp)
  have ht : t = track := by
    simp at hget
    exact hget.symm
  subst ht
  rw [hp]
  rfl

/-! ## The liked flag -/

theorem likedProjected_settle (w : LocalState) : LikedProjected (settle w) := by
  intro t ht
  unfold settle likedEffect at ht ⊢
  cases hc : w.playerState.currentTrack with
  | none =>
    simp only [hc] at ht
    cases ht
  | some c =>
    simp only [hc] at ht ⊢
    cases ht
    rfl

theorem likedProjected_settledAfter (before after : LocalState)
    (h : after.playerState.currentTrack = before.playerState.currentTrack →
      after.favorites = before.favorites → LikedProjected after) :
    LikedProjected (settledAfter before after) := by
  unfold settledAfter
  split
  · rename_i hd
    exact h hd.1 hd.2
  · exact likedProjected_settle after

theorem likedProjected_of_liked (favorites : Finset TrackId) (s : PlayerState) (t : Track)
    (hc : s.currentTrack = some t) (hl : s.liked = decide (t.id ∈ favorites)) :
    LikedProjected ⟨favorites, s⟩ := by
  intro u hu
  have hu' : s.currentTrack = some u := hu
  rw [hc] at hu'
  cases hu'
  exact hl

theorem next_liked_cases (favorites : Finset TrackId) (random : ℚ) (s s' : PlayerState)
    (h : next favorites random s = .ok s') :
    s' = s ∨ ∃ t, s'.currentTrack = some t ∧ s'.liked = decide (t.id ∈ favorites) := by
  unfold next nextFrom at h
  split at h
  · left
    injection h with h
    exact h.symm
  · right
    simp only at h
    split at h
    · cases h
    · rename_i t _
      injection h with h
      subst h
      exact ⟨t, rfl, rfl⟩

theorem previous_liked_cases (favorites : Finset TrackId) (random : ℚ)
    (audio : Option Audio) (s : PlayerState) (r : PlayerState × Option Audio)
    (h : previous favorites random audio s = .ok r) :
    r.1 = s ∨ ∃ t, r.1.currentTrack = some t ∧ r.1.liked = decide (t.id ∈ favorites) := by
  unfold previous previousFrom at h
  split at h
  · left
    injection h with h
    rw [← h]
  · simp only at h
    split at h
    · left
      injection h with h
      rw [← h]
    · right
      split at h
      · cases h
      · rename_i t _
        injection h with h
        subst h
        exact ⟨t, rfl, rfl⟩

theorem toggleLike_success_settled (u : User) (specificTrack : Option Track)
    (w : LocalState) (hw : LikedProjected w) :
    LikedProjected (settledAfter w (toggleLike (some u) specificTrack none w).state) := by
  apply likedProjected_settledAfter
  intro _ hf
  cases hx : (specificTrack <|> w.playerState.currentTrack) with
  | none =>
    rw [toggleLike_no_target u specificTrack none w hx]
    exact hw
  | some x =>
    have hflip := (toggleLike_success_favorites u specificTrack w x hx).2
    rw [hf] at hflip
    by_cases hm : x.id ∈ w.favorites
    · exact absurd hm (hflip.1.mp hm)
    · exact absurd (hflip.1.mpr hm) hm

theorem favorites_replaced_settled (w : LocalState) (favorites : Finset TrackId)
    (hw : LikedProjected w) :
    LikedProjected (settledAfter w ⟨favorites, w.playerState⟩) := by
  apply likedProjected_settledAfter
  intro _ hf
  have hf' : favorites = w.favorites := hf
  rw [hf']
  exact hw

/-- C23: `liked` is a projection of the favorites set.  The refresh effect
makes `liked = (currentTrack.id ∈ favorites)` on any state with a current
track, the initial state satisfies it, and from a state that satisfies it the
settled state after `playTrack`, `playTracks`, `next`, `previous`, a successful
`toggleLike`, a favorites load (succeeded or failed) and a sign-out satisfies it
again. -/
theorem liked_projection (w : LocalState) (hw : LikedProjected w) :
    (∀ v, LikedProjected (settle v)) ∧
    LikedProjected initialState ∧
    (∀ track source,
      LikedProjected
        (settledAfter w ⟨w.favorites, playTrack w.favorites w.playerState track source⟩)) ∧
    (∀ tracks startIndex source r,
      playTracks w.favorites w.playerState tracks startIndex source = .ok r →
      LikedProjected (settledAfter w ⟨w.favorites, r.2⟩)) ∧
    (∀ random s', next w.favorites random w.playerState = .ok s' →
      LikedProjected (settledAfter w ⟨w.favorites, s'⟩)) ∧
    (∀ random audio r, previous w.favorites random audio w.playerState = .ok r →
      LikedProjected (settledAfter w ⟨w.favorites, r.1⟩)) ∧
    (∀ u specificTrack,
      LikedProjected (settledAfter w (toggleLike (some u) specificTrack none w).state)) ∧
    (∀ response,
      LikedProjected
        (settledAfter w ⟨(loadFavorites response w.favorites).favorites, w.playerState⟩)) ∧
    (∀ response,
      LikedProjected
        (settledAfter w ⟨(userEffect none response w.favorites).favorites, w.playerState⟩)) := by
  refine ⟨likedProjected_settle, ?_, ?_, ?_, ?_, ?_, ?_, ?_, ?_⟩
  · intro t ht
    cases ht
  · intro track source
    exact likedProjected_settledAfter _ _
      (fun _ _ => likedProjected_of_liked _ _ track rfl rfl)
  · intro tracks startIndex source r hr
    apply likedProjected_settledAfter
    intro _ _
    by_cases hg : tracks.length = 0 ∨ startIndex < 0 ∨ startIndex ≥ (tracks.length : Int)
    · unfold playTracks playTracksFrom at hr
      rw [if_pos hg] at hr
      injection hr with hr
      rw [← hr]
      exact hw
    · have h0 : 0 ≤ startIndex := by
        by_contra hc
        exact hg (Or.inr (Or.inl (by omega)))
      have h1 : startIndex < tracks.length := by
        by_contra hc
        exact hg (Or.inr (Or.inr (by omega)))
      obtain ⟨t, -, hp⟩ :=
        playTracks_of_valid w.favorites w.playerState tracks startIndex source h0 h1
      rw [hp] at hr
      injection hr with hr
      rw [← hr]
      exact likedProjected_of_liked _ _ t rfl rfl
  · intro random s' hs
    apply likedProjected_settledAfter
    intro _ _
    rcases next_liked_cases w.favorites random w.playerState s' hs with h | ⟨t, hc, hl⟩
    · rw [h]
      exact hw
    · exact likedProjected_of_liked _ _ t hc hl
  · intro random audio r hr
    apply likedProjected_settledAfter
    intro _ _
    rcases previous_liked_cases w.favorites random audio w.playerState r hr with h | ⟨t, hc, hl⟩
    · rw [h]
      exact hw
    · exact likedProjected_of_liked _ _ t hc hl
  · intro u specificTrack
    exact toggleLike_success_settled u specificTrack w hw
  · intro response
    exact favorites_replaced_settled w _ hw
  · intro response
    exact favorites_replaced_settled w _ hw

theorem liked_projection_witness :
    LikedProjected onLikedB ∧
    LikedProjected
      (settledAfter onLikedB (toggleLike (some userU) (some trackA) none onLikedB).state) ∧
    LikedProjected
      (settledAfter onLikedB
        ⟨(userEffect none (.ok []) onLikedB.favorites).favorites, onLikedB.playerState⟩) ∧
    (settledAfter onLikedB
        ⟨(userEffect none (.ok []) onLikedB.favorites).favorites,
          onLikedB.playerState⟩).playerState.liked = false := by
  have hw : LikedProjected onLikedB := by
    intro t ht
    have ht' : some trackB = some t := ht
    cases ht'
    simp [onLikedB, abcAt, trackB]
  refine ⟨hw, (liked_projection onLikedB hw).2.2.2.2.2.2.1 userU (some trackA),
    (liked_projection onLikedB hw).2.2.2.2.2.2.2.2 (.ok []), ?_⟩
  have hne : (∅ : Finset TrackId) ≠ {2} := (Finset.singleton_ne_empty 2).symm
  simp [settledAfter, settle, likedEffect, userEffect, onLikedB, abcAt, hne]

/-! ## Rejected play requests -/

/-- C24: when the audio element rejects `play()`, the `.catch` handler of the
`isPlaying` effect and of the track-change effect stores the prior state with
`isPlaying = false`; queue, cursor, `currentTrack`, shuffle, source and volume
(and `liked`) are unchanged.  Both effects are total: the rejection is consumed
and nothing is thrown. -/
theorem play_rejected (user : Option User) (view prev : PlayerState) (a : Audio)
    (hp : view.isPlaying = true) :
    (playingEffect view (some a) true prev).playerState = { prev with isPlaying := false } ∧
    (∀ t, view.currentTrack = some t →
      (trackEffect user view (some a) true prev).playerState
        = { prev with isPlaying := false }) ∧
    ((playingEffect view (some a) true prev).playerState.queue = prev.queue ∧
      (playingEffect view (some a) true prev).playerState.currentIndex = prev.currentIndex ∧
      (playingEffect view (some a) true prev).playerState.currentTrack = prev.currentTrack ∧
      (playingEffect view (some a) true prev).playerState.shuffle = prev.shuffle ∧
      (playingEffect view (some a) true prev).playerState.source = prev.source ∧
      (playingEffect view (some a) true prev).playerState.volume = prev.volume ∧
      (playingEffect view (some a) true prev).playerState.isPlaying = false) := by
  have h1 : (playingEffect view (some a) true prev).playerState
      = { prev with isPlaying := false } := by
    unfold playingEffect
    simp [hp]
  refine ⟨h1, ?_, ?_⟩
  · intro t ht
    unfold trackEffect
    simp [ht, hp]
  · rw [h1]
    exact ⟨rfl, rfl, rfl, rfl, rfl, rfl, rfl⟩

theorem play_rejected_witness :
    (abcAt 1 trackB).isPlaying = true ∧
    (playingEffect (abcAt 1 trackB) (some audioEarly) true (abcAt 1 trackB)).playerState
      = { abcAt 1 trackB with isPlaying := false } ∧
    (trackEffect (some userU) (abcAt 1 trackB) (some audioEarly) true
        (abcAt 1 trackB)).playerState
      = { abcAt 1 trackB with isPlaying := false } :=
  ⟨rfl, (play_rejected (some userU) (abcAt 1 trackB) (abcAt 1 trackB) audioEarly rfl).1,
    (play_rejected (some userU) (abcAt 1 trackB) (abcAt 1 trackB) audioEarly rfl).2.1
      trackB rfl⟩

/-! ## Frame of navigation -/

theorem next_ok_cases (favorites : Finset TrackId) (random : ℚ) (s s' : PlayerState)
    (h : next favorites random s = .ok s') :
    (s.queue = [] ∧ s' = s) ∨
    (s.queue ≠ [] ∧ ∃ t i, s' =
      { s with currentTrack := some t, currentIndex := i, isPlaying := true
               liked := decide (t.id ∈ favorites) }) := by
  unfold next nextFrom at h
  split at h
  · rename_i hl
    left
    injection h with h
    exact ⟨List.length_eq_zero.mp hl, h.symm⟩
  · rename_i hl
    right
    refine ⟨fun hq => hl (by rw [hq]; rfl), ?_⟩
    simp only at h
    split at h
    · cases h
    · rename_i t _
      injection h with h
      exact ⟨t, _, h.symm⟩

theorem previous_ok_cases (favorites : Finset TrackId) (random : ℚ)
    (audio : Option Audio) (s : PlayerState) (r : PlayerState × Option Audio)
    (h : previous favorites random audio s = .ok r) :
    r.1 = s ∨
    (s.queue ≠ [] ∧ (∀ a, audio = some a → a.currentTime ≤ 3) ∧ ∃ t i, r.1 =
      { s with currentTrack := some t, currentIndex := i, isPlaying := true
               liked := decide (t.id ∈ favorites) }) := by
  by_cases hq : s.queue = []
  · left
    unfold previous previousFrom at h
    rw [if_pos (by rw [hq]; rfl)] at h
    injection h with h
    rw [← h]
  · by_cases ha : ∀ a, audio = some a → a.currentTime ≤ 3
    · right
      refine ⟨hq, ha, ?_⟩
      cases hj : jsIndex s.queue
          (if s.shuffle then ⌊random * (s.queue.length : ℚ)⌋
            else Int.tmod (s.currentIndex - 1 + s.queue.length) s.queue.length) with
      | none =>
        have hlen : s.queue.length ≠ 0 := fun hl => hq (List.length_eq_zero.mp hl)
        have hno : ∀ a, audio = some a → ¬ a.currentTime > 3 := fun a h' => not_lt.mpr (ha a h')
        unfold previous previousFrom at h
        rw [if_neg hlen] at h
        cases audio with
        | none =>
          simp only [Bool.false_eq_true, if_false, hj] at h
          cases h
        | some a =>
          simp only [hno a rfl, decide_False, Bool.false_eq_true, if_false, hj] at h
          cases h
      | some t =>
        have hp := previous_of_no_restart favorites random audio s t _ hq ha rfl hj
        rw [hp] at h
        injection h with h
        exact ⟨t, _, by rw [← h]⟩
    · left
      push_neg at ha
      obtain ⟨a, rfl, hgt⟩ := ha
      rw [previous_of_restart favorites random a s hq hgt] at h
      injection h with h
      rw [← h]

/-- C25: with a non-empty queue, every `next` that returns, and every `previous`
that returns with the audio position at most 3 seconds, stores
`isPlaying = true`, whatever `isPlaying` was before; and in a well-formed state
with a draw in `[0, 1)` both do return. -/
theorem advance_sets_playing (favorites : Finset TrackId) (random : ℚ)
    (audio : Option Audio) (s : PlayerState) (hq : s.queue ≠ [])
    (ha : ∀ a, audio = some a → a.currentTime ≤ 3) :
    (∀ s', next favorites random s = .ok s' → s'.isPlaying = true) ∧
    (∀ r, previous favorites random audio s = .ok r → r.1.isPlaying = true) ∧
    (WellFormed s → 0 ≤ random → random < 1 →
      (∃ s', next favorites random s = .ok s' ∧ s'.isPlaying = true) ∧
      (∃ r, previous favorites random audio s = .ok r ∧ r.1.isPlaying = true)) := by
  have hn : ∀ s', next favorites random s = .ok s' → s'.isPlaying = true := by
    intro s' h
    rcases next_ok_cases favorites random s s' h with ⟨he, -⟩ | ⟨-, t, i, hs⟩
    · exact absurd he hq
    · rw [hs]
  have hp : ∀ r, previous favorites random audio s = .ok r → r.1.isPlaying = true := by
    intro r h
    cases hj : jsIndex s.queue
        (if s.shuffle then ⌊random * (s.queue.length : ℚ)⌋
          else Int.tmod (s.currentIndex - 1 + s.queue.length) s.queue.length) with
    | none =>
      have hlen : s.queue.length ≠ 0 := fun hl => hq (List.length_eq_zero.mp hl)
      have hno : ∀ a, audio = some a → ¬ a.currentTime > 3 := fun a h' => not_lt.mpr (ha a h')
      unfold previous previousFrom at h
      rw [if_neg hlen] at h
      cases audio with
      | none =>
        simp only [Bool.false_eq_true, if_false, hj] at h
        cases h
      | some a =>
        simp only [hno a rfl, decide_False, Bool.false_eq_true, if_false, hj] at h
        cases h
    | some t =>
      rw [previous_of_no_restart favorites random audio s t _ hq ha rfl hj] at h
      injection h with h
      rw [← h]
  refine ⟨hn, hp, ?_⟩
  intro hw h0 h1
  obtain ⟨s', hs'⟩ := next_wellFormed favorites random s hw h0 h1
  obtain ⟨r, hr⟩ := previous_wellFormed favorites random audio s hw h0 h1
  exact ⟨⟨s', hs'.1, hn s' hs'.1⟩, ⟨r, hr.1, hp r hr.1⟩⟩

theorem advance_sets_playing_witness :
    ({ abcAt 1 trackB with isPlaying := false } : PlayerState).queue ≠ [] ∧
    (∃ s', next ∅ 0 { abcAt 1 trackB with isPlaying := false } = .ok s' ∧
      s'.isPlaying = true) ∧
    (∃ r, previous ∅ 0 (some audioEarly) { abcAt 1 trackB with isPlaying := false } = .ok r ∧
      r.1.isPlaying = true) :=
  ⟨by simp [abcAt],
    (advance_sets_playing ∅ 0 (some audioEarly) { abcAt 1 trackB with isPlaying := false }
      (by simp [abcAt]) (by intro a h; cases h; norm_num [audioEarly])).2.2
      (Or.inr ⟨by simp [abcAt], by simp [abcAt], trackB, rfl, rfl⟩) (le_refl 0) (by norm_num)⟩

theorem applyAction_frame (a : Action) (w w' : LocalState)
    (hc : a.isQueueConstruction = false) (h : applyAction a w = .ok w') :
    w'.playerState.queue = w.playerState.queue ∧
    w'.playerState.source = w.playerState.source := by
  cases a with
  | playTrack track source => cases hc
  | playTracks tracks startIndex source => cases hc
  | togglePlay =>
    injection h with h
    rw [← h]
    show (togglePlay w.playerState).queue = _ ∧ (togglePlay w.playerState).source = _
    unfold togglePlay togglePlayFrom
    split <;> exact ⟨rfl, rfl⟩
  | next random =>
    simp only [applyAction] at h
    cases hn : next w.favorites random w.playerState with
    | error e =>
      rw [hn] at h
      cases h
    | ok s' =>
      rw [hn] at h
      injection h with h
      rw [← h]
      rcases next_ok_cases w.favorites random w.playerState s' hn with ⟨-, hs⟩ | ⟨-, t, i, hs⟩
      · rw [hs]
        exact ⟨rfl, rfl⟩
      · rw [hs]
        exact ⟨rfl, rfl⟩
  | previous random audio =>
    simp only [applyAction] at h
    cases hn : previous w.favorites random audio w.playerState with
    | error e =>
      rw [hn] at h
      cases h
    | ok r =>
      rw [hn] at h
      injection h with h
      rw [← h]
      rcases previous_ok_cases w.favorites random audio w.playerState r hn with
        hs | ⟨-, -, t, i, hs⟩
      · show r.1.queue = _ ∧ r.1.source = _
        rw [hs]
        exact ⟨rfl, rfl⟩
      · show r.1.queue = _ ∧ r.1.source = _
        rw [hs]
        exact ⟨rfl, rfl⟩
  | toggleShuffle =>
    injection h with h
    rw [← h]
    exact ⟨rfl, rfl⟩
  | toggleLike user specificTrack response =>
    injection h with h
    rw [← h]
    rcases toggleLike_playerState_cases user specificTrack response w with hs | ⟨_, _, _, _, hs⟩
    · rw [hs]
      exact ⟨rfl, rfl⟩
    · rw [hs]
      exact ⟨rfl, rfl⟩
  | setVolume volume =>
    injection h with h
    rw [← h]
    exact ⟨rfl, rfl⟩
  | seek time audio currentTime =>
    injection h with h
    rw [← h]
    exact ⟨rfl, rfl⟩

/-- C26: every public operation other than `playTrack` and `playTracks`
(`togglePlay`, `next`, `previous`, `toggleShuffle`, `toggleLike`, `setVolume`,
`seek`) leaves the queue (same items, same order) and the source as they were,
on every state; in a well-formed state with draws in `[0, 1)` the operation
returns, and `seek` leaves the whole local state alone. -/
theorem queue_source_frame (a : Action) (w : LocalState)
    (hc : a.isQueueConstruction = false) :
    (∀ w', applyAction a w = .ok w' →
      w'.playerState.queue = w.playerState.queue ∧
      w'.playerState.source = w.playerState.source) ∧
    (WellFormed w.playerState → a.DrawsInRange →
      ∃ w', applyAction a w = .ok w' ∧
        w'.playerState.queue = w.playerState.queue ∧
        w'.playerState.source = w.playerState.source) ∧
    (∀ time audio currentTime, applyAction (Action.seek time audio currentTime) w = .ok w) := by
  refine ⟨fun w' h => applyAction_frame a w w' hc h, ?_, fun _ _ _ => rfl⟩
  intro hw hd
  obtain ⟨w', h, -⟩ := applyAction_wellFormed a w hw hd
  exact ⟨w', h, applyAction_frame a w w' hc h⟩

theorem queue_source_frame_witness :
    (Action.next (1 / 2)).isQueueConstruction = false ∧
    ∃ w', applyAction (Action.next (1 / 2)) onB = .ok w' ∧
      w'.playerState.queue = onB.playerState.queue ∧
      w'.playerState.source = onB.playerState.source :=
  ⟨rfl, (queue_source_frame (Action.next (1 / 2)) onB rfl).2.1
    (Or.inr ⟨by simp [onB, abcAt], by simp [onB, abcAt], trackB, rfl, rfl⟩)
    (by simp only [Action.DrawsInRange]; norm_num)⟩

/-! ## The source field -/

theorem togglePlay_withSource (src : Option String) (s : PlayerState) :
    togglePlay (withSource src s) = withSource src (togglePlay s) := by
  unfold togglePlay togglePlayFrom withSource
  simp only
  split <;> rfl

theorem next_withSource (favorites : Finset TrackId) (random : ℚ) (src : Option String)
    (s : PlayerState) :
    next favorites random (withSource src s) = (next favorites random s).map (withSource src) := by
  unfold next nextFrom withSource
  simp only
  split
  · rfl
  · split <;> rfl

theorem previous_withSource (favorites : Finset TrackId) (random : ℚ)
    (audio : Option Audio) (src : Option String) (s : PlayerState) :
    previous favorites random audio (withSource src s)
      = (previous favorites random audio s).map (fun r => (withSource src r.1, r.2)) := by
  unfold previous previousFrom withSource
  simp only
  split
  · rfl
  · split
    · rfl
    · split <;> rfl

theorem eq_withSource_of_agree (s1 s2 : PlayerState)
    (h : withSource none s1 = withSource none s2) : s2 = withSource s2.source s1 := by
  cases s1
  cases s2
  simp only [withSource, PlayerState.mk.injEq] at h ⊢
  obtain ⟨h1, h2, h3, h4, h5, h6, h7, -⟩ := h
  exact ⟨h1.symm, h2.symm, h3.symm, h4.symm, h5.symm, h6.symm, h7.symm, trivial⟩

theorem withSource_withSource (a b : Option String) (s : PlayerState) :
    withSource a (withSource b s) = withSource a s := rfl

/-- C27: the source is not read by playback logic.  If two player states agree
on every field but `source`, then after `togglePlay`, `next`, `previous` (same
favorites, random draw and audio element), `toggleShuffle` and `setVolume` the
two results (or the two exceptions) again agree on every field but `source`,
and each result keeps the source of its own input. -/
theorem source_irrelevant (favorites : Finset TrackId) (random volume : ℚ)
    (audio : Option Audio) (s1 s2 : PlayerState)
    (h : withSource none s1 = withSource none s2) :
    withSource none (togglePlay s1) = withSource none (togglePlay s2) ∧
    (next favorites random s1).map (withSource none)
      = (next favorites random s2).map (withSource none) ∧
    (previous favorites random audio s1).map (fun r => (withSource none r.1, r.2))
      = (previous favorites random audio s2).map (fun r => (withSource none r.1, r.2)) ∧
    withSource none (toggleShuffle s1) = withSource none (toggleShuffle s2) ∧
    withSource none (setVolume volume s1) = withSource none (setVolume volume s2) ∧
    (togglePlay s2).source = s2.source ∧
    (toggleShuffle s2).source = s2.source ∧
    (setVolume volume s2).source = s2.source ∧
    (∀ s', next favorites random s2 = .ok s' → s'.source = s2.source) ∧
    (∀ r, previous favorites random audio s2 = .ok r → r.1.source = s2.source) := by
  have h2 := eq_withSource_of_agree s1 s2 h
  refine ⟨?_, ?_, ?_, ?_, ?_, ?_, rfl, rfl, ?_, ?_⟩
  · rw [h2, togglePlay_withSource]
    rfl
  · rw [h2, next_withSource]
    cases next favorites random s1 <;> rfl
  · rw [h2, previous_withSource]
    cases previous favorites random audio s1 <;> rfl
  · rw [h2]
    rfl
  · rw [h2]
    rfl
  · unfold togglePlay togglePlayFrom
    split <;> rfl
  · intro s' hs
    rcases next_ok_cases favorites random s2 s' hs with ⟨-, e⟩ | ⟨-, t, i, e⟩ <;> rw [e]
  · intro r hr
    rcases previous_ok_cases favorites random audio s2 r hr with e | ⟨-, -, t, i, e⟩ <;> rw [e]

theorem source_irrelevant_witness :
    withSource none (abcAt 1 trackB)
      = withSource none (withSource (some "/album/7") (abcAt 1 trackB)) ∧
    (next ∅ 0 (abcAt 1 trackB)).map (withSource none)
      = (next ∅ 0 (withSource (some "/album/7") (abcAt 1 trackB))).map (withSource none) ∧
    next ∅ 0 (withSource (some "/album/7") (abcAt 1 trackB))
      = .ok (withSource (some "/album/7") (abcAt 2 trackC)) :=
  ⟨rfl,
    (source_irrelevant ∅ 0 (1 / 2) (some audioEarly) (abcAt 1 trackB)
      (withSource (some "/album/7") (abcAt 1 trackB)) rfl).2.1,
    rfl⟩

/-! ## Loading favorites -/

/-- C28: when the request succeeds, `loadFavorites` replaces the local
favorites set with exactly the set of the `track_id`s of the returned rows;
when it fails, the previous set is untouched and the error is written to the
console, not thrown.  For a signed-in identity the effect on `user` is this
load. -/
theorem loadFavorites_outcome (prev : Finset TrackId) :
    (∀ data : List FavoriteRow,
      loadFavorites (.ok data) prev =
        { thrown := none, logged := none
          favorites := (data.map FavoriteRow.track_id).toFinset } ∧
      ∀ id, id ∈ (loadFavorites (.ok data) prev).favorites ↔
        ∃ row, row ∈ data ∧ row.track_id = id) ∧
    (∀ err : RemoteError,
      loadFavorites (.error err) prev = { thrown := none, logged := some err, favorites := prev } ∧
      (loadFavorites (.error err) prev).favorites = prev ∧
      (loadFavorites (.error err) prev).thrown = none) ∧
    (∀ (u : User) response, userEffect (some u) response prev = loadFavorites response prev) := by
  refine ⟨?_, fun err => ⟨rfl, rfl, rfl⟩, fun _ _ => rfl⟩
  intro data
  refine ⟨rfl, ?_⟩
  intro id
  show id ∈ (data.map FavoriteRow.track_id).toFinset ↔ _
  simp only [List.mem_toFinset, List.mem_map]

/-! ## Next and previous as inverses -/

theorem previous_of_nonneg_cursor (favorites : Finset TrackId) (random : ℚ)
    (audio : Option Audio) (s : PlayerState)
    (hq : s.queue ≠ []) (hsh : s.shuffle = false) (h0 : 0 ≤ s.currentIndex)
    (ha : ∀ a, audio = some a → a.currentTime ≤ 3) :
    ∃ t, s.queue.get?
          ((s.currentIndex - 1 + s.queue.length) % (s.queue.length : Int)).toNat = some t ∧
      previous favorites random audio s =
        .ok ({ s with
               currentTrack := some t
               currentIndex := (s.currentIndex - 1 + s.queue.length) % (s.queue.length : Int)
               isPlaying := true
               liked := decide (t.id ∈ favorites) }, audio) := by
  have hpos := length_pos_of_ne_nil s.queue hq
  have hmod : Int.tmod (s.currentIndex - 1 + s.queue.length) s.queue.length
      = (s.currentIndex - 1 + s.queue.length) % (s.queue.length : Int) :=
    Int.tmod_eq_emod (by omega) (by omega)
  have hlo : 0 ≤ (s.currentIndex - 1 + s.queue.length) % (s.queue.length : Int) :=
    Int.emod_nonneg _ (by omega)
  have hhi : (s.currentIndex - 1 + s.queue.length) % (s.queue.length : Int)
      < s.queue.length := Int.emod_lt_of_pos _ (by omega)
  obtain ⟨t, ht, hget⟩ := jsIndex_of_lt s.queue _ hlo hhi
  exact ⟨t, hget, previous_of_no_restart favorites random audio s t _ hq ha
    (by rw [hsh]; simp only [Bool.false_eq_true, if_false]; exact hmod) ht⟩

theorem emod_succ_pred (c n : Int) (h0 : 0 ≤ c) (h1 : c < n) :
    ((c + 1) % n - 1 + n) % n = c := by
  have e : (c + 1) % n - 1 + n = (c + 1) % n + (n - 1) := by ring
  rw [e, Int.emod_add_emod]
  have e2 : c + 1 + (n - 1) = c + n := by ring
  rw [e2, Int.add_emod_self]
  exact Int.emod_eq_of_lt h0 h1

theorem emod_pred_succ (c n : Int) (h0 : 0 ≤ c) (h1 : c < n) :
    ((c - 1 + n) % n + 1) % n = c := by
  rw [Int.emod_add_emod]
  have e2 : c - 1 + n + 1 = c + n := by ring
  rw [e2, Int.add_emod_self]
  exact Int.emod_eq_of_lt h0 h1

theorem previous_to_index (favorites : Finset TrackId) (random : ℚ)
    (audio : Option Audio) (s : PlayerState) (c : Int) (t : Track)
    (hq : s.queue ≠ []) (hsh : s.shuffle = false) (h0 : 0 ≤ s.currentIndex)
    (ha : ∀ a, audio = some a → a.currentTime ≤ 3)
    (hc : (s.currentIndex - 1 + s.queue.length) % (s.queue.length : Int) = c)
    (hget : s.queue.get? c.toNat = some t) :
    ∃ s', previous favorites random audio s = .ok (s', audio) ∧
      s'.currentIndex = c ∧ s'.currentTrack = some t := by
  obtain ⟨u, hu, hp⟩ := previous_of_nonneg_cursor favorites random audio s hq hsh h0 ha
  rw [hc] at hu hp
  rw [hget] at hu
  cases hu
  exact ⟨_, hp, rfl, rfl⟩

theorem next_to_index (favorites : Finset TrackId) (random : ℚ)
    (s : PlayerState) (c : Int) (t : Track)
    (hq : s.queue ≠ []) (hsh : s.shuffle = false) (h0 : 0 ≤ s.currentIndex)
    (hc : (s.currentIndex + 1) % (s.queue.length : Int) = c)
    (hget : s.queue.get? c.toNat = some t) :
    ∃ s', next favorites random s = .ok s' ∧
      s'.currentIndex = c ∧ s'.currentTrack = some t := by
  obtain ⟨u, hu, hn⟩ := next_of_nonneg_cursor favorites random s hq hsh h0
  rw [hc] at hu hn
  rw [hget] at hu
  cases hu
  exact ⟨_, hn, rfl, rfl⟩

/-- C29: with shuffle off, a non-empty queue, the cursor `c` inside the queue
and an audio position of at most 3 seconds, `next` followed by `previous`, and
`previous` followed by `next`, raise nothing and bring the cursor back to `c`
and `currentTrack` back to the queue item at `c`. -/
theorem next_previous_inverse (favorites : Finset TrackId) (r1 r2 : ℚ)
    (audio : Option Audio) (s : PlayerState)
    (hq : s.queue ≠ []) (hsh : s.shuffle = false)
    (h0 : 0 ≤ s.currentIndex) (h1 : s.currentIndex < s.queue.length)
    (ha : ∀ a, audio = some a → a.currentTime ≤ 3) :
    ∃ t, s.queue.get? s.currentIndex.toNat = some t ∧
      (∃ s1 s2, next favorites r1 s = .ok s1 ∧
        previous favorites r2 audio s1 = .ok (s2, audio) ∧
        s2.currentIndex = s.currentIndex ∧ s2.currentTrack = some t) ∧
      (∃ s1 s2, previous favorites r1 audio s = .ok (s1, audio) ∧
        next favorites r2 s1 = .ok s2 ∧
        s2.currentIndex = s.currentIndex ∧ s2.currentTrack = some t) := by
  have hpos := length_pos_of_ne_nil s.queue hq
  obtain ⟨t, -, hget⟩ := jsIndex_of_lt s.queue s.currentIndex h0 h1
  refine ⟨t, hget, ?_, ?_⟩
  · obtain ⟨u, -, hn⟩ := next_of_nonneg_cursor favorites r1 s hq hsh h0
    obtain ⟨s2, hp, hi, ht⟩ := previous_to_index favorites r2 audio
      { s with
        currentTrack := some u
        currentIndex := (s.currentIndex + 1) % (s.queue.length : Int)
        isPlaying := true
        liked := decide (u.id ∈ favorites) }
      s.currentIndex t hq hsh (Int.emod_nonneg _ (by omega)) ha
      (emod_succ_pred s.currentIndex s.queue.length h0 h1) hget
    exact ⟨_, s2, hn, hp, hi, ht⟩
  · obtain ⟨u, -, hp⟩ := previous_of_nonneg_cursor favorites r1 audio s hq hsh h0 ha
    obtain ⟨s2, hn, hi, ht⟩ := next_to_index favorites r2
      { s with
        currentTrack := some u
        currentIndex := (s.currentIndex - 1 + s.queue.length) % (s.queue.length : Int)
        isPlaying := true
        liked := decide (u.id ∈ favorites) }
      s.currentIndex t hq hsh (Int.emod_nonneg _ (by omega))
      (emod_pred_succ s.currentIndex s.queue.length h0 h1) hget
    exact ⟨_, s2, hp, hn, hi, ht⟩

theorem next_previous_inverse_witness :
    (∃ t, (abcAt 2 trackC).queue.get? (abcAt 2 trackC).currentIndex.toNat = some t ∧
      (∃ s1 s2, next ∅ 0 (abcAt 2 trackC) = .ok s1 ∧
        previous ∅ 0 (some audioEarly) s1 = .ok (s2, some audioEarly) ∧
        s2.currentIndex = (abcAt 2 trackC).currentIndex ∧ s2.currentTrack = some t) ∧
      (∃ s1 s2, previous ∅ 0 (some audioEarly) (abcAt 2 trackC) = .ok (s1, some audioEarly) ∧
        next ∅ 0 s1 = .ok s2 ∧
        s2.currentIndex = (abcAt 2 trackC).currentIndex ∧ s2.currentTrack = some t)) ∧
    next ∅ 0 (abcAt 2 trackC) = .ok (abcAt 0 trackA) :=
  ⟨next_previous_inverse ∅ 0 0 (some audioEarly) (abcAt 2 trackC) (by simp [abcAt]) rfl
      (by simp [abcAt]) (by simp [abcAt]) (by intro a h; cases h; norm_num [audioEarly]),
    rfl⟩

/-! ## Nothing to like -/

/-- C30: when nobody is signed in, or when no explicit track is given and there
is no current track, `toggleLike` returns before issuing any remote request,
throws nothing and leaves the favorites set and the player state as they
were, whatever the remote store would have answered. -/
theorem toggleLike_nothing_to_do (user : Option User) (specificTrack : Option Track)
    (response : Option RemoteError) (w : LocalState)
    (h : user = none ∨ (specificTrack = none ∧ w.playerState.currentTrack = none)) :
    toggleLikeBegin user w.playerState w.favorites specificTrack w = (Pending.returned, w) ∧
    toggleLike user specificTrack response w = { thrown := none, state := w } ∧
    (toggleLike user specificTrack response w).state.favorites = w.favorites ∧
    (toggleLike user specificTrack response w).state.playerState = w.playerState := by
  have hb : toggleLikeBegin user w.playerState w.favorites specificTrack w
      = (Pending.returned, w) := by
    rcases h with hu | ⟨hs, hc⟩
    · rw [hu]
      rfl
    · cases user with
      | none => rfl
      | some u =>
        unfold toggleLikeBegin
        rw [hs, hc]
        rfl
  have ht : toggleLike user specificTrack response w = { thrown := none, state := w } := by
    unfold toggleLike toggleLikeFrom
    rw [hb]
  refine ⟨hb, ht, ?_, ?_⟩ <;> rw [ht]

theorem toggleLike_nothing_to_do_witness :
    (toggleLikeBegin none onB.playerState onB.favorites (some trackA) onB
        = (Pending.returned, onB) ∧
      toggleLike none (some trackA) none onB = { thrown := none, state := onB } ∧
      (toggleLike none (some trackA) none onB).state.favorites = onB.favorites ∧
      (toggleLike none (some trackA) none onB).state.playerState = onB.playerState) ∧
    (toggleLikeBegin (some userU) initialState.playerState initialState.favorites none
          initialState
        = (Pending.returned, initialState) ∧
      toggleLike (some userU) none (some remoteFailure) initialState
        = { thrown := none, state := initialState } ∧
      (toggleLike (some userU) none (some remoteFailure) initialState).state.favorites
        = initialState.favorites ∧
      (toggleLike (some userU) none (some remoteFailure) initialState).state.playerState
        = initialState.playerState) :=
  ⟨toggleLike_nothing_to_do none (some trackA) none onB (Or.inl rfl),
    toggleLike_nothing_to_do (some userU) none (some remoteFailure) initialState
      (Or.inr ⟨rfl, rfl⟩)⟩

end Harmony
